import Mathlib

/-!
# Verification of the go-arbi triangular-arbitrage bot

A shallow embedding, in Lean 4, of the opportunity-detection and
execution-decision engine of the `go-arbi` repository, together with
theorems settling the specification claims about it.

Modelling conventions, used throughout:

* Ethereum addresses (`common.Address`) are modelled as `Nat`; the Go zero
  address `common.Address{}` is `0`.  Hex address literals from the static
  token tables are embedded as hexadecimal numerals.
* `*big.Int` amounts are modelled as `Int`.  Go's `big.Int.Div` implements
  Euclidean division, which is `Int.ediv` in Lean.
* `float64` / `big.Float` profit fractions are modelled as exact rationals
  (`ℚ`).  Every concrete comparison used in a theorem below has a margin
  vastly exceeding `float64` rounding error, so the abstraction is sound
  for the settled claims.
* Remote reads (token decimals, router `getAmountsOut` answers, endpoint
  liveness probes, swap execution outcomes) are oracle parameters: pure
  functions standing for the answer the chain / RPC endpoint would give.
* `time.Duration` is modelled as `Int` nanoseconds; wall-clock instants in
  the connection pool are `Nat` seconds; the scheduler's hour-of-day is a
  `Nat` parameter (Go reads `time.Now().UTC().Hour()`).
-/

namespace GoArbi

attribute [local semireducible] Rat.add Rat.sub Rat.mul Rat.inv

/-- Ethereum address; `0` is Go's zero `common.Address`. -/
abbrev Addr := Nat

/-! ## Small string utilities (Go `strings.Contains`, `sort.Strings`) -/

/-- `leadsWith needle hay`: `needle` occurs at the start of `hay`
(character-wise model of a Go substring match anchor). -/
def leadsWith : List Char → List Char → Bool
  | [], _ => true
  | _ :: _, [] => false
  | a :: as, b :: bs => a = b && leadsWith as bs

/-- `hasSub needle hay`: `needle` occurs contiguously inside `hay`. -/
def hasSub (needle : List Char) : List Char → Bool
  | [] => leadsWith needle []
  | c :: rest => leadsWith needle (c :: rest) || hasSub needle rest

/-- Go `strings.Contains s sub`. -/
def strContains (s sub : String) : Bool := hasSub sub.data s.data

/-- Byte-wise lexicographic order on character lists (Go's native string
comparison, as used by `sort.Strings`). -/
def charListLe : List Char → List Char → Bool
  | [], _ => true
  | _ :: _, [] => false
  | a :: as, b :: bs =>
    if a.toNat < b.toNat then true
    else if b.toNat < a.toNat then false
    else charListLe as bs

/-- Go string `<=` (lexicographic by bytes; identical on ASCII to
character-wise). -/
def strLe (s t : String) : Bool := charListLe s.data t.data

/-- Insert a string into a sorted list (helper for `sortStrings`). -/
def insertSorted (s : String) : List String → List String
  | [] => [s]
  | t :: rest => if strLe s t then s :: t :: rest else t :: insertSorted s rest

/-- Go `sort.Strings` (lexicographic ascending), as insertion sort. -/
def sortStrings : List String → List String
  | [] => []
  | s :: rest => insertSorted s (sortStrings rest)

/-! ## Data model (`models/models.go`) -/

/-- `models.TokenPair`.  The Go `map[string]string` fields are modelled as
association lists from symbol / pair-key to the parsed address
(`common.HexToAddress` of a missing or empty entry is the zero address,
which `lookupAddr`'s default `0` reproduces).  `TestAmounts` are the
human-scale `float64` probe magnitudes, as exact rationals. -/
structure TokenPair where
  name : String
  tokens : List (String × Addr)
  pancakeswapPair : List (String × Addr)
  biswapPair : List (String × Addr)
  priority : Int
  testAmounts : List ℚ

/-- Go map read `m[k]` followed by `common.HexToAddress`: a missing key
yields the zero address. -/
def lookupAddr : List (String × Addr) → String → Addr
  | [], _ => 0
  | (k, a) :: rest, key => if k = key then a else lookupAddr rest key

/-- `getOtherTokens` (arbitrage.go): the non-WBNB symbols of the token map,
sorted with `sort.Strings` for deterministic ordering. -/
def getOtherTokens (tokens : List (String × Addr)) : List String :=
  sortStrings ((tokens.map Prod.fst).filter (fun k => ¬ (k = "WBNB")))

/-- `models.ArbitrageResult`.  `profitPercent` is the value the source
stores there: see `checkTriangularArbitrage`. -/
structure ArbitrageResult where
  profit : Int
  platformFee : Int
  userProfit : Int
  targetAmount : Int
  profitPercent : ℚ
  direction : Bool
  path : List Addr
  deriving DecidableEq, Repr

/-- `models.ArbitrageData` (flash-loan call payload). -/
structure ArbitrageData where
  path1 : List Addr
  path2 : List Addr
  path3 : List Addr
  minAmountsOut : List Int
  direction : Bool
  deriving DecidableEq, Repr

/-! ## Chain oracles -/

/-- Read-only chain answers consumed by the pricing engine:
`decimals a` is the `GetTokenDecimals` answer for token `a` (`none` = the
call failed); `quote router amountIn path` is the raw sequence the router
contract's `getAmountsOut` returns (`none` = transport / unpack failure).
Results reflect a fixed chain state, matching one scan instant. -/
structure ChainOracle where
  decimals : Addr → Option Nat
  quote : Addr → Int → List Addr → Option (List Int)

/-- The router / contract addresses and config the `ArbitrageService`
carries (`PancakeRouter`, `BiswapRouter`, `FlashContract`,
`Config.MinProfit`). -/
structure ArbitrageService where
  pancakeRouter : Addr
  biswapRouter : Addr
  flashContract : Addr
  minProfit : ℚ

/-- `TokenService.FormatTokenAmount`: convert a human-scale amount to the
token's smallest unit.  Go renders the `float64` to `decimals` fractional
digits (rounding to nearest) and multiplies by `10^decimals`; on exact
rationals this is rounding `amount * 10 ^ decimals` to an integer. -/
def formatTokenAmount (amount : ℚ) (decimals : Nat) : Int :=
  round (amount * (10 : ℚ) ^ decimals)

/-! ## Price oracle adapter: `RouterService.GetAmountsOut` (router.go) -/

/-- Failure modes of `GetAmountsOut` / `GetAmountOutSingle`, one per
`fmt.Errorf` site in router.go. -/
inductive QuoteErr
  | pathTooShort
  | invalidAmount
  | zeroAddress (i : Nat)
  | identicalConsecutive (i : Nat)
  | upstream
  | badLength (got expected : Nat)
  | zeroOutput (i : Nat)
  | insufficientAmounts
  deriving DecidableEq, Repr

/-- The path-validation loop of `GetAmountsOut`: first zero address or
identical-consecutive pair wins, scanning left to right.  `prev` carries
`path[i-1]`. -/
def pathCheck : Option Addr → List Addr → Nat → Option QuoteErr
  | _, [], _ => none
  | prev, a :: rest, i =>
    if a = 0 then some (QuoteErr.zeroAddress i)
    else if prev = some a then some (QuoteErr.identicalConsecutive i)
    else pathCheck (some a) rest (i + 1)

/-- Index of the first non-positive entry (the `amounts` validation loop of
`GetAmountsOut`). -/
def firstNonPosIdx : List Int → Nat → Option Nat
  | [], _ => none
  | a :: rest, i => if a ≤ 0 then some i else firstNonPosIdx rest (i + 1)

/-- `RouterService.GetAmountsOut router amountIn path`, with the venue's
raw answer supplied as `venueAnswer` (the decoded sequence the on-chain
call would return; `none` models call/unpack failure).  Mirrors router.go
lines 40–99: length / amount / address validation, the call, result-length
check, and the positive-amounts check. -/
def getAmountsOut (venueAnswer : Option (List Int)) (amountIn : Int)
    (path : List Addr) : Except QuoteErr (List Int) :=
  if path.length < 2 then Except.error QuoteErr.pathTooShort
  else if amountIn ≤ 0 then Except.error QuoteErr.invalidAmount
  else
    match pathCheck none path 0 with
    | some e => Except.error e
    | none =>
      match venueAnswer with
      | none => Except.error QuoteErr.upstream
      | some amounts =>
        if amounts.length ≠ path.length then
          Except.error (QuoteErr.badLength amounts.length path.length)
        else
          match firstNonPosIdx amounts 0 with
          | some i => Except.error (QuoteErr.zeroOutput i)
          | none => Except.ok amounts

/-- `RouterService.GetAmountOutSingle`: the last element of a successful
`GetAmountsOut`. -/
def getAmountOutSingle (venueAnswer : Option (List Int)) (amountIn : Int)
    (path : List Addr) : Except QuoteErr Int :=
  match getAmountsOut venueAnswer amountIn path with
  | Except.error e => Except.error e
  | Except.ok amounts =>
    if amounts.length < 2 then Except.error QuoteErr.insufficientAmounts
    else Except.ok (amounts.getLastD 0)

/-! ## Route pricing engine: `CheckTriangularArbitrage` (arbitrage.go) -/

/-- Failure modes of the three-leg pricing pipeline, one per error return
in `CheckTriangularArbitrage` / `ConfirmProfitability`. -/
inductive ArbErr
  | insufficientTokens
  | tokensNotDistinct
  | decimalsFailed
  | step (i : Nat) (e : QuoteErr)
  | badAmountsLength (i : Nat)
  deriving DecidableEq, Repr

/-- The three leg quotes of one triangular pricing attempt, with the
resolved token addresses.  `out3` is the leg-3 output (`amounts3[1]`). -/
structure LegQuotes where
  amountIn : Int
  out1 : Int
  out2 : Int
  out3 : Int
  tokenA : Addr
  tokenB : Addr
  tokenC : Addr
  deriving DecidableEq, Repr

/-- Lines 188–308 of `CheckTriangularArbitrage`: resolve the three tokens,
convert the test amount via the base token's decimals, and run the three
sequential `GetAmountsOut` quotes (venue 1 → venue 2 → venue 1, the
direction flag choosing which router is venue 1), each leg's output
feeding the next leg's input. -/
def runTriangularLegs (svc : ArbitrageService) (o : ChainOracle)
    (pair : TokenPair) (testAmount : ℚ) (pancakeFirst : Bool) :
    Except ArbErr LegQuotes :=
  let tokenA := lookupAddr pair.tokens "WBNB"
  let others := getOtherTokens pair.tokens
  if others.length < 2 then Except.error ArbErr.insufficientTokens
  else
    let tokenB := lookupAddr pair.tokens (others.getD 0 "")
    let tokenC := lookupAddr pair.tokens (others.getD 1 "")
    if tokenA = tokenB ∨ tokenB = tokenC ∨ tokenA = tokenC then
      Except.error ArbErr.tokensNotDistinct
    else
      match o.decimals tokenA with
      | none => Except.error ArbErr.decimalsFailed
      | some dA =>
        let tokenAmount := formatTokenAmount testAmount dA
        let path1 := [tokenA, tokenB]
        let path2 := [tokenB, tokenC]
        let path3 := [tokenC, tokenA]
        let route1 := if pancakeFirst then svc.pancakeRouter else svc.biswapRouter
        let route2 := if pancakeFirst then svc.biswapRouter else svc.pancakeRouter
        let route3 := if pancakeFirst then svc.pancakeRouter else svc.biswapRouter
        match getAmountsOut (o.quote route1 tokenAmount path1) tokenAmount path1 with
        | Except.error e => Except.error (ArbErr.step 1 e)
        | Except.ok amounts1 =>
          if amounts1.length < 2 then Except.error (ArbErr.badAmountsLength 1)
          else
            match getAmountsOut (o.quote route2 (amounts1.getD 1 0) path2)
                (amounts1.getD 1 0) path2 with
            | Except.error e => Except.error (ArbErr.step 2 e)
            | Except.ok amounts2 =>
              if amounts2.length < 2 then Except.error (ArbErr.badAmountsLength 2)
              else
                match getAmountsOut (o.quote route3 (amounts2.getD 1 0) path3)
                    (amounts2.getD 1 0) path3 with
                | Except.error e => Except.error (ArbErr.step 3 e)
                | Except.ok amounts3 =>
                  if amounts3.length < 2 then Except.error (ArbErr.badAmountsLength 3)
                  else
                    Except.ok
                      { amountIn := tokenAmount
                        out1 := amounts1.getD 1 0
                        out2 := amounts2.getD 1 0
                        out3 := amounts3.getD 1 0
                        tokenA := tokenA, tokenB := tokenB, tokenC := tokenC }

/-- Lines 310–346 of `CheckTriangularArbitrage`: profit, profit fraction
(guarding a zero input), the flat 0.1 % gas heuristic, and the 90/10
user/platform split.  Note that the stored `ProfitPercent` field is the
gas-ADJUSTED fraction `profit/input - 0.001`, and that `PlatformFee` uses
`big.Int.Div` (Euclidean division, `Int.ediv`). -/
def checkTriangularArbitrage (svc : ArbitrageService) (o : ChainOracle)
    (pair : TokenPair) (testAmount : ℚ) (pancakeFirst : Bool) :
    Except ArbErr ArbitrageResult :=
  (runTriangularLegs svc o pair testAmount pancakeFirst).map fun lq =>
    let profit : Int := lq.out3 - lq.amountIn
    let profitPercent : ℚ :=
      if 0 < lq.amountIn then (profit : ℚ) / (lq.amountIn : ℚ) else 0
    let gasAdjustedProfitPercent := profitPercent - 1 / 1000
    { profit := profit
      platformFee := Int.ediv profit 10
      userProfit := profit - Int.ediv profit 10
      targetAmount := lq.amountIn
      profitPercent := gasAdjustedProfitPercent
      direction := pancakeFirst
      path := [lq.tokenA, lq.tokenB, lq.tokenC] }

/-- `ConfirmProfitability` (arbitrage.go lines 350–420): re-price the same
three legs through `GetAmountOutSingle` against fresh oracle answers and
return the profit fraction minus the flat 0.1 % heuristic. -/
def confirmProfitability (svc : ArbitrageService) (o : ChainOracle)
    (pair : TokenPair) (testAmount : ℚ) (pancakeFirst : Bool) :
    Except ArbErr ℚ :=
  let tokenA := lookupAddr pair.tokens "WBNB"
  let others := getOtherTokens pair.tokens
  if others.length < 2 then Except.error ArbErr.insufficientTokens
  else
    let tokenB := lookupAddr pair.tokens (others.getD 0 "")
    let tokenC := lookupAddr pair.tokens (others.getD 1 "")
    match o.decimals tokenA with
    | none => Except.error ArbErr.decimalsFailed
    | some dA =>
      let amountInWei := formatTokenAmount testAmount dA
      let route1 := if pancakeFirst then svc.pancakeRouter else svc.biswapRouter
      let route2 := if pancakeFirst then svc.biswapRouter else svc.pancakeRouter
      let route3 := if pancakeFirst then svc.pancakeRouter else svc.biswapRouter
      let path1 := [tokenA, tokenB]
      match getAmountOutSingle (o.quote route1 amountInWei path1) amountInWei path1 with
      | Except.error e => Except.error (ArbErr.step 1 e)
      | Except.ok amountOut1 =>
        let path2 := [tokenB, tokenC]
        match getAmountOutSingle (o.quote route2 amountOut1 path2) amountOut1 path2 with
        | Except.error e => Except.error (ArbErr.step 2 e)
        | Except.ok amountOut2 =>
          let path3 := [tokenC, tokenA]
          match getAmountOutSingle (o.quote route3 amountOut2 path3) amountOut2 path3 with
          | Except.error e => Except.error (ArbErr.step 3 e)
          | Except.ok amountOut3 =>
            let profitPercent : ℚ :=
              if 0 < amountInWei then
                ((amountOut3 - amountInWei : Int) : ℚ) / (amountInWei : ℚ)
              else 0
            Except.ok (profitPercent - 1 / 1000)

/-! ## Profitability policy (arbitrage.go lines 1000–1044, 937–965) -/

/-- `getMemeCategory`: classify a pair name by substring matching. -/
def getMemeCategory (pairName : String) : String :=
  if strContains pairName "SHIB" || strContains pairName "DOGE" ||
      strContains pairName "FLOKI" || strContains pairName "SAFEMOON" then "meme"
  else if strContains pairName "BSW" then "volatile"
  else if strContains pairName "CAKE" then "established"
  else if strContains pairName "BUSD" then "stable"
  else "unknown"

/-- `getMinProfitForCategory`: the category minimum profit fraction. -/
def getMinProfitForCategory (category : String) : ℚ :=
  if category = "meme" then 5 / 1000
  else if category = "volatile" then 3 / 1000
  else if category = "established" then 2 / 1000
  else if category = "stable" then 1 / 1000
  else 2 / 1000

/-- `getGasAdjustmentForCategory`: the category gas-adjustment fraction. -/
def getGasAdjustmentForCategory (category : String) : ℚ :=
  if category = "meme" then 15 / 10000
  else if category = "volatile" then 12 / 10000
  else if category = "established" then 10 / 10000
  else if category = "stable" then 8 / 10000
  else 10 / 10000

/-- The route-selection block of `FindEnhancedArbitrageOpportunities`
(lines 937–965): route 1 (pancake-first) is kept if its stored
`ProfitPercent` minus the category gas adjustment reaches the category
minimum; route 2 then replaces it only if it also qualifies and its
adjusted profit is strictly higher (or no route-1 candidate exists).
Returns the chosen result, its direction flag, and its adjusted profit. -/
def selectBestRoute (r1 r2 : Except ArbErr ArbitrageResult)
    (minProfit gasAdjustment : ℚ) : Option (ArbitrageResult × Bool × ℚ) :=
  let best1 : Option (ArbitrageResult × Bool × ℚ) :=
    match r1 with
    | Except.ok res1 =>
      let adjustedProfit1 := res1.profitPercent - gasAdjustment
      if minProfit ≤ adjustedProfit1 then some (res1, true, adjustedProfit1) else none
    | Except.error _ => none
  match r2 with
  | Except.ok res2 =>
    let adjustedProfit2 := res2.profitPercent - gasAdjustment
    (match best1 with
     | none =>
       if minProfit ≤ adjustedProfit2 then some (res2, false, adjustedProfit2) else none
     | some (res1, d1, adjustedProfit1) =>
       if minProfit ≤ adjustedProfit2 ∧ adjustedProfit1 < adjustedProfit2 then
         some (res2, false, adjustedProfit2)
       else some (res1, d1, adjustedProfit1))
  | Except.error _ => best1

/-! ## Scan passes (`FindEnhancedArbitrageOpportunities`,
`FindArbitrageOpportunities`) -/

/-- Observable actions of one scan pass, mirroring the Go call sites:
`confirmPass` / `confirmFail` are emitted exactly where
`ConfirmProfitability` is invoked, `executed` where `ExecuteArbitrage` is
invoked (its `Bool` is the execution outcome);
`skippedNoFlashContract` is the legacy branch that logs and skips when no
flash contract is configured. -/
inductive Event
  | routeError (pancakeFirst : Bool)
  | bothRoutesFailed
  | confirmPass (pancakeFirst : Bool) (value : ℚ)
  | confirmFail (pancakeFirst : Bool)
  | executed (pancakeFirst : Bool) (success : Bool)
  | skippedNoFlashContract (pancakeFirst : Bool)
  deriving DecidableEq, Repr

/-- Outcome oracle for `ExecuteArbitrage pair amount pancakeFirst`
(`true` = the execution returned without error). -/
def ExecOracle := TokenPair → Int → Bool → Bool

/-- Is this event a successful execution? -/
def isSuccessfulExec : Event → Bool
  | Event.executed _ true => true
  | _ => false

/-- The inner test-amount loop of `FindEnhancedArbitrageOpportunities`
(lines 927–984): price both directions, select via `selectBestRoute`, and
on a selected candidate call `ExecuteArbitrage` and break to the next pair
(`foundOpportunity` is set only when the execution succeeded).  Returns
(`foundOpportunity`, events in order). -/
def scanAmounts (svc : ArbitrageService) (o : ChainOracle) (exec : ExecOracle)
    (pair : TokenPair) (minProfit gasAdjustment : ℚ) :
    List ℚ → Bool × List Event
  | [] => (false, [])
  | amount :: rest =>
    let r1 := checkTriangularArbitrage svc o pair amount true
    let r2 := checkTriangularArbitrage svc o pair amount false
    if r1.isOk = false ∧ r2.isOk = false then
      let t := scanAmounts svc o exec pair minProfit gasAdjustment rest
      (t.1, Event.bothRoutesFailed :: t.2)
    else
      match selectBestRoute r1 r2 minProfit gasAdjustment with
      | some (best, pancakeFirst, _) =>
        let ok := exec pair best.targetAmount pancakeFirst
        (ok, [Event.executed pancakeFirst ok])
      | none => scanAmounts svc o exec pair minProfit gasAdjustment rest

/-- The outer pair loop of `FindEnhancedArbitrageOpportunities`
(lines 918–989): per-pair category thresholds, then the amount loop; the
whole pass stops after the first pair whose execution succeeded. -/
def scanPairs (svc : ArbitrageService) (o : ChainOracle) (exec : ExecOracle) :
    List TokenPair → Bool × List Event
  | [] => (false, [])
  | pair :: rest =>
    let category := getMemeCategory pair.name
    let t := scanAmounts svc o exec pair (getMinProfitForCategory category)
      (getGasAdjustmentForCategory category) pair.testAmounts
    if t.1 then (true, t.2)
    else
      let t' := scanPairs svc o exec rest
      (t'.1, t.2 ++ t'.2)

/-- `FindEnhancedArbitrageOpportunities` (lines 901–997): runs the pass and
returns its error value — which is `nil` on every control path — together
with the event trace. -/
def findEnhancedArbitrageOpportunities (svc : ArbitrageService)
    (o : ChainOracle) (exec : ExecOracle) (pairs : List TokenPair) :
    Option String × List Event :=
  let t := scanPairs svc o exec pairs
  (none, t.2)

/-- The error handling `performEnhancedScanWithRetry` (part_005 lines
392–403) applies to the result of `FindEnhancedArbitrageOpportunities`: a
non-nil error whose text contains "No enhanced opportunities" is converted
to success; anything else is passed through. -/
def performEnhancedScanError (svc : ArbitrageService) (o : ChainOracle)
    (exec : ExecOracle) (pairs : List TokenPair) : Option String :=
  match (findEnhancedArbitrageOpportunities svc o exec pairs).1 with
  | some msg => if strContains msg "No enhanced opportunities" then none else some msg
  | none => none

/-- One amount iteration of the legacy `FindArbitrageOpportunities`
(lines 72–137): price both directions (an error in either skips the
amount); if a direction's stored `ProfitPercent` exceeds `Config.MinProfit`
run `ConfirmProfitability` for it — a confirmation error or a value below
`MinProfit` skips the amount with no execution; otherwise execute (when a
flash contract is configured) and stop the whole scan (`return nil`).
Returns (events in order, whether the scan returned). -/
def legacyEvaluateAmount (svc : ArbitrageService) (o : ChainOracle)
    (exec : ExecOracle) (pair : TokenPair) (amount : ℚ) :
    List Event × Bool :=
  match checkTriangularArbitrage svc o pair amount true with
  | Except.error _ => ([Event.routeError true], false)
  | Except.ok r1 =>
    match checkTriangularArbitrage svc o pair amount false with
    | Except.error _ => ([Event.routeError false], false)
    | Except.ok r2 =>
      if svc.minProfit < r1.profitPercent then
        match confirmProfitability svc o pair amount true with
        | Except.error _ => ([Event.confirmFail true], false)
        | Except.ok confirmProfit =>
          if confirmProfit < svc.minProfit then ([Event.confirmFail true], false)
          else if svc.flashContract ≠ 0 then
            ([Event.confirmPass true confirmProfit,
              Event.executed true (exec pair r1.targetAmount true)], true)
          else ([Event.confirmPass true confirmProfit,
                 Event.skippedNoFlashContract true], true)
      else if svc.minProfit < r2.profitPercent then
        match confirmProfitability svc o pair amount false with
        | Except.error _ => ([Event.confirmFail false], false)
        | Except.ok confirmProfit =>
          if confirmProfit < svc.minProfit then ([Event.confirmFail false], false)
          else if svc.flashContract ≠ 0 then
            ([Event.confirmPass false confirmProfit,
              Event.executed false (exec pair r2.targetAmount false)], true)
          else ([Event.confirmPass false confirmProfit,
                 Event.skippedNoFlashContract false], true)
      else ([], false)

/-! ## Flash execution path: `ExecuteFlashArbitrage` (lines 441–498) -/

/-- Failure modes of the flash-payload construction. -/
inductive FlashErr
  | insufficientTokens
  | pairAddressNotFound
  deriving DecidableEq, Repr

/-- The payload-construction part of `ExecuteFlashArbitrage` (everything
before nonce/gas/signing, lines 448–498): resolve tokens and paths, build
the three minimum-output bounds — `amount*99/100`, `amount*99/100`,
`amount*100/99`, all from the borrowed input `amount` — and resolve the
pool to borrow from.  `big.Int.Mul`/`Div` are exact integer
multiply-then-Euclidean-divide. -/
def executeFlashArbitrageData (pair : TokenPair) (amount : Int)
    (pancakeFirst : Bool) : Except FlashErr (ArbitrageData × Addr) :=
  let tokenA := lookupAddr pair.tokens "WBNB"
  let others := getOtherTokens pair.tokens
  if others.length < 2 then Except.error FlashErr.insufficientTokens
  else
    let tokenB := lookupAddr pair.tokens (others.getD 0 "")
    let tokenC := lookupAddr pair.tokens (others.getD 1 "")
    let path1 := [tokenA, tokenB]
    let path2 := [tokenB, tokenC]
    let path3 := [tokenC, tokenA]
    let minOutA := Int.ediv (amount * 99) 100
    let minOutB := Int.ediv (amount * 99) 100
    let minOutC := Int.ediv (amount * 100) 99
    let pairKey := "WBNB-" ++ others.getD 0 ""
    let pairAddress :=
      if pancakeFirst then lookupAddr pair.pancakeswapPair pairKey
      else lookupAddr pair.biswapPair pairKey
    if pairAddress = 0 then Except.error FlashErr.pairAddressNotFound
    else
      Except.ok
        ({ path1 := path1, path2 := path2, path3 := path3
           minAmountsOut := [minOutA, minOutB, minOutC]
           direction := pancakeFirst }, pairAddress)

/-- The per-leg bounds the specification sentence describes: 99 % of each
forward leg's EXPECTED OUTPUT and 100/99 of the repay leg's expected
output.  Stated from the spec's words only, to compare against what
`executeFlashArbitrageData` actually builds. -/
def specFlashMinAmounts (expected1 expected2 expected3 : Int) : List Int :=
  [Int.ediv (expected1 * 99) 100, Int.ediv (expected2 * 99) 100,
   Int.ediv (expected3 * 100) 99]

/-! ## Scan scheduler: `calculateAdaptiveInterval` (part_005) -/

/-- Nanoseconds per second (`time.Second`). -/
def nsPerSecond : Int := 1000000000

/-- `time.Duration(float64(d) * (num/den))`: scale a nanosecond duration
and truncate toward zero (the `float64`→`Duration` conversion); the
`float64` multiplier is modelled by its intended exact rational. -/
def scaleDuration (d : Int) (num den : Int) : Int := Int.tdiv (d * num) den

/-- The FIXED `calculateAdaptiveInterval` (part_005 lines 435–483):
first-matching-case switch on peak hours (×0.8), low-activity hours 02–08
(×1.3), ≥3 consecutive errors (×1.5), ≥5 consecutive errors (cap — dead:
the ≥3 case fires first), else the base; then the clamp chain to
`minInterval` 10 s / `maxInterval` 120 s / `baseMinimum` 15 s.  The hour
is a parameter standing for `time.Now().UTC().Hour()`. -/
def calculateAdaptiveInterval (hour : Nat) (baseInterval : Int)
    (consecutiveErrors : Nat) : Int :=
  let minInterval : Int := 10 * nsPerSecond
  let maxInterval : Int := 120 * nsPerSecond
  let baseMinimum : Int := 15 * nsPerSecond
  let newInterval : Int :=
    if (13 ≤ hour ∧ hour ≤ 16) ∨ (21 ≤ hour ∧ hour ≤ 23) then
      scaleDuration baseInterval 8 10
    else if 2 ≤ hour ∧ hour ≤ 8 then scaleDuration baseInterval 13 10
    else if 3 ≤ consecutiveErrors then scaleDuration baseInterval 15 10
    else if 5 ≤ consecutiveErrors then maxInterval
    else baseInterval
  if newInterval < minInterval then minInterval
  else if maxInterval < newInterval then maxInterval
  else if newInterval < baseMinimum then baseMinimum
  else newInterval

/-- The superseded `calculateAdaptiveInterval` variant (part_005 lines
847–866): peak hours ×0.7, low-activity hours 02–06 ×2.0, more than one
consecutive error ×1.5, else the base — with NO clamping. -/
def calculateAdaptiveIntervalV2 (hour : Nat) (baseInterval : Int)
    (consecutiveErrors : Nat) : Int :=
  if (13 ≤ hour ∧ hour ≤ 16) ∨ (21 ≤ hour ∧ hour ≤ 23) then
    scaleDuration baseInterval 7 10
  else if 2 ≤ hour ∧ hour ≤ 6 then scaleDuration baseInterval 2 1
  else if 1 < consecutiveErrors then scaleDuration baseInterval 15 10
  else baseInterval

/-! ## Connection resilience: `WithRetry` (client.go lines 349–394) -/

/-- The connection-class error substrings of `IsConnectionError` /
`AutoSwitchOnError` (client.go). -/
def connectionErrorKinds : List String :=
  ["connection refused", "connection reset", "timeout", "dial tcp",
   "i/o timeout", "network is unreachable", "no such host",
   "connection timed out", "context deadline exceeded", "eof", "broken pipe"]

/-- ASCII lowercasing of one character (Go `strings.ToLower` on the ASCII
error texts involved). -/
def charToLower (c : Char) : Char :=
  if 65 ≤ c.toNat ∧ c.toNat ≤ 90 then Char.ofNat (c.toNat + 32) else c

/-- Go `strings.ToLower`. -/
def strToLower (s : String) : String := String.mk (s.data.map charToLower)

/-- `IsConnectionError`: lowercase the error text and search for any
connection-class substring. -/
def isConnectionError (msg : String) : Bool :=
  connectionErrorKinds.any (fun k => strContains (strToLower msg) k)

/-- Result of `WithRetry`: success with the loop index it succeeded on, the
wrapped last error of line 384 ("%s failed after %d attempts: %v"), or the
post-loop fallthrough of line 393 ("%s failed after all retries"). -/
inductive RetryOutcome
  | ok (attempt : Nat)
  | failedAfterMaxAttempts (operation : String) (attempts : Nat) (lastErr : String)
  | failedAllRetries (operation : String)
  deriving DecidableEq, Repr

/-- The `for attempt := 0; attempt < maxRetries; attempt++` loop of
`WithRetry`, with `maxRetries = 3`, `baseDelay = 2` seconds.  `fuel` is
the remaining loop iterations (`maxRetries - attempt`).  `fnErr n` is the
error (if any) of the `n`-th underlying `fn()` call; `switchOk n` is
whether the `SwitchRPC` attempted after a connection-class failure of call
`n` succeeds (`AutoSwitchOnError` returns `true` only in that case).  Note
that the connection-class branch is a Go `continue`, which still runs the
loop's `attempt++` — it reaches the next iteration, not a free retry.
The second component lists the backoff delays slept, in seconds
(`(attempt+1) * baseDelay`).  The pre-attempt health check mutates only
pool state and is not modelled here. -/
def withRetryLoop (operation : String) (fnErr : Nat → Option String)
    (switchOk : Nat → Bool) : Nat → Nat → RetryOutcome × List Nat
  | 0, _ => (RetryOutcome.failedAllRetries operation, [])
  | fuel + 1, attempt =>
    match fnErr attempt with
    | none => (RetryOutcome.ok attempt, [])
    | some msg =>
      if isConnectionError msg && switchOk attempt then
        withRetryLoop operation fnErr switchOk fuel (attempt + 1)
      else if attempt = 2 then
        (RetryOutcome.failedAfterMaxAttempts operation 3 msg, [])
      else
        let t := withRetryLoop operation fnErr switchOk fuel (attempt + 1)
        (t.1, (attempt + 1) * 2 :: t.2)

/-- `EthClient.WithRetry operation fn`. -/
def withRetry (operation : String) (fnErr : Nat → Option String)
    (switchOk : Nat → Bool) : RetryOutcome × List Nat :=
  withRetryLoop operation fnErr switchOk 3 0

/-! ## Connection pool: `connectToWorkingRPC` / `SwitchRPC`
(client.go lines 134–229) -/

/-- The `failedRPCs map[string]time.Time` field: endpoint URL ↦ the second
it was marked failed. -/
abbrev FailMap := List (String × Nat)

/-- Map lookup in `failedRPCs`. -/
def lookupFailedTime : FailMap → String → Option Nat
  | [], _ => none
  | (v, t) :: rest, u => if v = u then some t else lookupFailedTime rest u

/-- The purge at the top of `connectToWorkingRPC`: delete entries whose
failure is older than 5 minutes (300 s); entries at most 300 s old stay. -/
def purgeFailed (m : FailMap) (now : Nat) : FailMap :=
  m.filter (fun p => decide (now - p.2 ≤ 300))

/-- `EthClient`'s RPC-management state. -/
structure RPCState where
  endpoints : List String
  rpcIndex : Nat
  failedRPCs : FailMap
  currentRPC : String
  isHealthy : Bool
  deriving DecidableEq, Repr

/-- `NewEthClient`'s initial pool state (`rpcIndex: 0`, empty failed map,
no connection yet). -/
def mkInitState (endpoints : List String) : RPCState :=
  { endpoints := endpoints, rpcIndex := 0, failedRPCs := [],
    currentRPC := "", isHealthy := false }

/-- Error results of `connectToWorkingRPC`: the `attemptsCount == 0` branch
("all RPC endpoints are marked as failed") and the final branch ("failed to
connect to any RPC endpoint after %d attempts"). -/
inductive ConnErr
  | allMarkedFailed
  | allAttemptsFailed (attempts : Nat)
  deriving DecidableEq, Repr

/-- Result of the loop inside `connectToWorkingRPC`. -/
structure TryResult where
  found : Option (String × Nat)
  failMap : FailMap
  attempted : List String
  deriving Repr

/-- The endpoint loop of `connectToWorkingRPC` over the index list `idxs`:
skip endpoints present in the failed map; otherwise attempt (dial +
`NetworkID` probe, merged into the single liveness oracle `alive`); a dead
endpoint is marked failed at `now` and the loop continues; a live one is
selected.  `attempted` records the endpoints actually tried, in order. -/
def tryEndpoints (eps : List String) (alive : String → Bool) (now : Nat) :
    List Nat → FailMap → TryResult
  | [], fm => { found := none, failMap := fm, attempted := [] }
  | i :: rest, fm =>
    let u := eps.getD i ""
    if (lookupFailedTime fm u).isSome then tryEndpoints eps alive now rest fm
    else if alive u then { found := some (u, i), failMap := fm, attempted := [u] }
    else
      let r := tryEndpoints eps alive now rest ((u, now) :: fm)
      { found := r.found, failMap := r.failMap, attempted := u :: r.attempted }

/-- The round-robin visiting order `(e.rpcIndex + i) % len(e.rpcEndpoints)`
for `i = 0 .. N-1`. -/
def roundRobinIndices (start n : Nat) : List Nat :=
  (List.range n).map (fun i => (start + i) % n)

/-- Full result of a connect attempt: the returned error/endpoint, the
updated pool state, and the endpoints attempted. -/
structure ConnectResult where
  result : Except ConnErr String
  state : RPCState
  attempted : List String
  deriving Repr

/-- `connectToWorkingRPC` (lines 134–203): purge expired failure marks, try
endpoints round-robin starting at `rpcIndex`, and on success install the
endpoint as current (updating `rpcIndex`, health and the failed map); on
total failure keep the previous connection fields and report which error
branch fired. -/
def connectToWorkingRPC (st : RPCState) (alive : String → Bool) (now : Nat) :
    ConnectResult :=
  let fm0 := purgeFailed st.failedRPCs now
  let idxs := roundRobinIndices st.rpcIndex st.endpoints.length
  let r := tryEndpoints st.endpoints alive now idxs fm0
  match r.found with
  | some (u, i) =>
    { result := Except.ok u
      state :=
        { st with
          currentRPC := u
          rpcIndex := i
          failedRPCs := r.failMap
          isHealthy := true }
      attempted := r.attempted }
  | none =>
    { result := Except.error
        (if r.attempted.isEmpty then ConnErr.allMarkedFailed
         else ConnErr.allAttemptsFailed r.attempted.length)
      state := { st with failedRPCs := r.failMap }
      attempted := r.attempted }

/-- `SwitchRPC` (lines 206–229): mark the current endpoint failed at `now`,
flag unhealthy, then `connectToWorkingRPC`. -/
def switchRPC (st : RPCState) (alive : String → Bool) (now : Nat) :
    ConnectResult :=
  connectToWorkingRPC
    { st with
      failedRPCs := (st.currentRPC, now) :: st.failedRPCs
      isHealthy := false }
    alive now

/-! ## Static reference data: `models.InitializeTokenPairs`
(part_003 lines 1029–1113, the revision the scan claims cite) -/

/-- `models.InitializeTokenPairs`: the static token-triple table, in its
Go slice order.  Addresses are the hex literals of the source; map
literals become association lists in source order. -/
def initializeTokenPairs : List TokenPair :=
  [{ name := "WBNB-BTCB-USDT"
     tokens :=
       [("WBNB", 0xbb4CdB9CBd36B01bD1cBaEBF2De08d9173bc095c),
        ("BTCB", 0x7130d2A12B9BCbFAe4f2634d864A1Ee1Ce3Ead9c),
        ("USDT", 0x55d398326f99059fF775485246999027B3197955)]
     pancakeswapPair :=
       [("WBNB-BTCB", 0x61EB789d75A95CAa3fF50ed7E47b96c132fEc082),
        ("BTCB-USDT", 0xD171B26E4484402de70e3Ea256bE5A2630d7e88D),
        ("USDT-WBNB", 0x16b9a82891338f9bA80E2D6970FddA79D1eb0daE)]
     biswapPair :=
       [("WBNB-BTCB", 0xC7e9d76ba11099AF3F330ff829c5F442d571e057),
        ("BTCB-USDT", 0xa987f0b7098585c735cD943ee07544a84e923d1D),
        ("USDT-WBNB", 0x8840C6252e2e86e545deFb6da98B2a0E26d8C1BA)]
     priority := 2
     testAmounts := [1/100, 1/20, 1/10] },
   { name := "WBNB-ETH-USDT"
     tokens :=
       [("WBNB", 0xbb4CdB9CBd36B01bD1cBaEBF2De08d9173bc095c),
        ("ETH", 0x2170Ed0880ac9A755fd29B2688956BD959F933F8),
        ("USDT", 0x55d398326f99059fF775485246999027B3197955)]
     pancakeswapPair :=
       [("WBNB-ETH", 0x74E4716E431f45807DCF19f284c7aA99F18a4fbc),
        ("ETH-USDT", 0x531FEbfeb9a61D948c384ACFBe6dCc51057AEa7e),
        ("USDT-WBNB", 0x16b9a82891338f9bA80E2D6970FddA79D1eb0daE)]
     biswapPair :=
       [("WBNB-ETH", 0x5bf6941f029424674bb93A43b79fc46bF4A67c21),
        ("ETH-USDT", 0x63b30de1A998e9E64FD58A21F68D323B9BcD8F85),
        ("USDT-WBNB", 0x8840C6252e2e86e545deFb6da98B2a0E26d8C1BA)]
     priority := 2
     testAmounts := [1/100, 1/20, 1/10] },
   { name := "WBNB-BSW-USDT"
     tokens :=
       [("WBNB", 0xbb4CdB9CBd36B01bD1cBaEBF2De08d9173bc095c),
        ("BSW", 0x965F527D9159dCe6288a2219DB51fc6Eef120dD1),
        ("USDT", 0x55d398326f99059fF775485246999027B3197955)]
     pancakeswapPair :=
       [("WBNB-BSW", 0x8CA3fF14A52b080C54A6d1a405eecA02959d39fE),
        ("BSW-USDT", 0x4344b51cf44f4f182a8e25239cf4d81b315331c3),
        ("USDT-WBNB", 0x16b9a82891338f9bA80E2D6970FddA79D1eb0daE)]
     biswapPair :=
       [("WBNB-BSW", 0x46492B26639Df0cda9b2769429845cb991591E0A),
        ("BSW-USDT", 0x2b30c317ceDFb554Ec525F85E79538D59970BEb0),
        ("USDT-WBNB", 0x8840C6252e2e86e545deFb6da98B2a0E26d8C1BA)]
     priority := 1
     testAmounts := [1/100, 1/20, 1/10] },
   { name := "WBNB-USDT-BUSD"
     tokens :=
       [("WBNB", 0xbb4CdB9CBd36B01bD1cBaEBF2De08d9173bc095c),
        ("USDT", 0x55d398326f99059fF775485246999027B3197955),
        ("BUSD", 0xe9e7CEA3DedcA5984780Bafc599bD69ADd087D56)]
     pancakeswapPair :=
       [("WBNB-USDT", 0x16b9a82891338f9bA80E2D6970FddA79D1eb0daE),
        ("USDT-BUSD", 0x7EFaEf62fDdCCa950418312c6C91Aef321375A00),
        ("BUSD-WBNB", 0x58F876857a02D6762E0101bb5C46A8c1ED44Dc16)]
     biswapPair :=
       [("WBNB-USDT", 0x8840C6252e2e86e545deFb6da98B2a0E26d8C1BA),
        ("USDT-BUSD", 0xDA8ceb724A06819c0A5cDb4304ea0cB27F8304cF),
        ("BUSD-WBNB", 0x2b30c317ceDFb554Ec525F85E79538D59970BEb0)]
     priority := 3
     testAmounts := [1/200, 1/100, 1/50] }]

/-! ## Concrete fixtures used by witnesses and counterexamples -/

/-- Decidable equality for `Except`, used to evaluate concrete pipeline
runs by `decide`. -/
instance {e a : Type} [DecidableEq e] [DecidableEq a] : DecidableEq (Except e a)
  | Except.ok x, Except.ok y =>
    if h : x = y then isTrue (by rw [h]) else isFalse (by simp [h])
  | Except.ok _, Except.error _ => isFalse (by simp)
  | Except.error _, Except.ok _ => isFalse (by simp)
  | Except.error x, Except.error y =>
    if h : x = y then isTrue (by rw [h]) else isFalse (by simp [h])

/-- A three-token triple (addresses 1, 2, 3; category "stable" by name)
with a configured PancakeSwap borrow pool for the WBNB–BUSD leg. -/
def wPair : TokenPair :=
  { name := "WBNB-USDT-BUSD"
    tokens := [("WBNB", 1), ("USDT", 2), ("BUSD", 3)]
    pancakeswapPair := [("WBNB-BUSD", 7)]
    biswapPair := [("WBNB-BUSD", 8)]
    priority := 1
    testAmounts := [100] }

/-- A chain state where every token reports 0 decimals and every router
quotes `amount → amount + 1` for a two-token path: each leg gains one
smallest unit. -/
def wOracle : ChainOracle :=
  { decimals := fun _ => some 0
    quote := fun _ amt _ => some [amt, amt + 1] }

/-- A chain state quoting leg outputs 200 / 300 / 400 for the three legs
of `wPair` priced at input 100 (paths `[1,3]`, `[3,2]`, `[2,1]`). -/
def wOracleLegs : ChainOracle :=
  { decimals := fun _ => some 0
    quote := fun _ amt path =>
      some [amt, if path = [1, 3] then 200 else if path = [3, 2] then 300 else 400] }

/-- A service with distinct router addresses, a configured flash contract,
and the default 0.5 % `MinProfit`. -/
def wSvc : ArbitrageService :=
  { pancakeRouter := 10, biswapRouter := 20, flashContract := 5, minProfit := 5 / 1000 }

/-- An execution oracle whose every execution succeeds. -/
def wExecOk : ExecOracle := fun _ _ _ => true

/-- Does an event record a `ConfirmProfitability` call? -/
def isConfirmEvent : Event → Bool
  | Event.confirmPass _ _ => true
  | Event.confirmFail _ => true
  | _ => false

/-- Number of successful executions in a trace. -/
def execSuccessCount (evts : List Event) : Nat :=
  (evts.filter isSuccessfulExec).length

/-! # Theorems

Helper lemmas first, then the claim theorems C1–C10 with their witnesses
and counterexamples. -/

/-- The leg quotes of the `c1` witness run: input 100, outputs 101 / 102 /
103 through tokens 1 → 3 → 2. -/
def wLegs : LegQuotes :=
  { amountIn := 100, out1 := 101, out2 := 102, out3 := 103,
    tokenA := 1, tokenB := 3, tokenC := 2 }

/-- Route results of the C3 witness: two qualifying directions with stored
fractions 2.9 % and 3.9 % under the stable thresholds. -/
def wResA : ArbitrageResult :=
  { profit := 3, platformFee := 0, userProfit := 3, targetAmount := 100,
    profitPercent := 29 / 1000, direction := true, path := [1, 3, 2] }

/-- Second direction's route result for the C3 witness. -/
def wResB : ArbitrageResult :=
  { profit := 4, platformFee := 0, userProfit := 4, targetAmount := 100,
    profitPercent := 39 / 1000, direction := false, path := [1, 3, 2] }

/-- The decision rule the claim states, taken verbatim from the spec's
words: accepted iff the raw profit fraction `profit/input` minus the
category gas adjustment reaches the category minimum. -/
def specAcceptC3 (profit input : Int) (category : String) : Prop :=
  getMinProfitForCategory category ≤
    (profit : ℚ) / (input : ℚ) - getGasAdjustmentForCategory category

/-- Chain state for the C3 counterexample: a route returning 401000 from
400000 (raw fraction 0.25 %). -/
def wOracleC3 : ChainOracle :=
  { decimals := fun _ => some 0
    quote := fun _ amt path =>
      some [amt, if path = [1, 3] then 400300
                 else if path = [3, 2] then 400600 else 401000] }

/-- The route result the C3 counterexample pipeline produces. -/
def wResC3 : ArbitrageResult :=
  { profit := 1000, platformFee := 100, userProfit := 900,
    targetAmount := 400000, profitPercent := 1 / 400 - 1 / 1000,
    direction := true, path := [1, 3, 2] }

/-- The flash payload built for `wPair` at input 100. -/
def wFlashData : ArbitrageData :=
  { path1 := [1, 3]
    path2 := [3, 2]
    path3 := [2, 1]
    minAmountsOut := [99, 99, 101]
    direction := true }

/-- The liveness probe of the C6 witness: only endpoint "epC" answers. -/
def wAliveC6 : String → Bool := fun u => decide (u = "epC")

set_option maxRecDepth 4000

/-- `firstNonPosIdx` finds nothing iff every entry is positive. -/
theorem firstNonPosIdx_eq_none : ∀ (l : List Int) (i : Nat),
    firstNonPosIdx l i = none → ∀ x ∈ l, 0 < x := by
  intro l
  induction l with
  | nil => intro i _ x hx; cases hx
  | cons a rest ih =>
    intro i h x hx
    simp only [firstNonPosIdx] at h
    by_cases ha : a ≤ 0
    · rw [if_pos ha] at h; cases h
    · rw [if_neg ha] at h
      rw [List.mem_cons] at hx
      rcases hx with rfl | hx
      · omega
      · exact ih (i + 1) h x hx

/-- A list with a non-positive entry makes `firstNonPosIdx` report one. -/
theorem firstNonPosIdx_eq_some : ∀ (l : List Int) (i : Nat),
    (∃ x ∈ l, x ≤ 0) → ∃ j, firstNonPosIdx l i = some j := by
  intro l
  induction l with
  | nil => intro i h; rcases h with ⟨x, hx, _⟩; cases hx
  | cons a rest ih =>
    intro i h
    simp only [firstNonPosIdx]
    by_cases ha : a ≤ 0
    · exact ⟨i, by rw [if_pos ha]⟩
    · rw [if_neg ha]
      rcases h with ⟨x, hx, hle⟩
      rw [List.mem_cons] at hx
      rcases hx with rfl | hx
      · omega
      · exact ih (i + 1) ⟨x, hx, hle⟩

/-- The path-validation loop accepts a path of non-zero addresses with no
two adjacent entries equal (given a compatible `prev`). -/
theorem pathCheck_eq_none : ∀ (path : List Addr) (prev : Option Addr) (i : Nat),
    (∀ a ∈ path, a ≠ 0) → List.Chain' (fun a b => a ≠ b) path →
    (∀ p a, prev = some p → path.head? = some a → p ≠ a) →
    pathCheck prev path i = none := by
  intro path
  induction path with
  | nil => intro prev i _ _ _; rfl
  | cons a rest ih =>
    intro prev i h0 hc hprev
    have ha : ¬ (a = 0) := h0 a (List.mem_cons_self a rest)
    have hpa : ¬ (prev = some a) := by
      intro e
      exact hprev a a e rfl rfl
    simp only [pathCheck, if_neg ha, if_neg hpa]
    apply ih (some a) (i + 1)
    · intro x hx; exact h0 x (List.mem_cons_of_mem a hx)
    · exact hc.tail
    · intro p b hp hb
      cases rest with
      | nil => cases hb
      | cons c t =>
        have hac : a ≠ c := (List.chain'_cons.mp hc).1
        injection hp with hp'
        rw [List.head?_cons] at hb
        injection hb with hb'
        rw [← hp', ← hb']
        exact hac

/-- With the validation hypotheses satisfied, `getAmountsOut` reduces to
the venue-answer handling. -/
theorem getAmountsOut_eval (venueAnswer : Option (List Int)) (amountIn : Int)
    (path : List Addr)
    (h2 : ¬ path.length < 2) (hp : ¬ amountIn ≤ 0)
    (hv : pathCheck none path 0 = none) :
    getAmountsOut venueAnswer amountIn path =
      (match venueAnswer with
       | none => Except.error QuoteErr.upstream
       | some amounts =>
         if amounts.length ≠ path.length then
           Except.error (QuoteErr.badLength amounts.length path.length)
         else
           match firstNonPosIdx amounts 0 with
           | some i => Except.error (QuoteErr.zeroOutput i)
           | none => Except.ok amounts) := by
  simp only [getAmountsOut, if_neg h2, if_neg hp, hv]

/-- **C1** For every `RouteResult` produced by a pricing attempt in which
all three leg quotes succeed, the net profit equals the leg-3 output minus
the original input amount (both in base-token smallest units), and, under
the hypothesis `profit > 0`, `platformFee + userProfit = profit` with
`platformFee = profit / 10` by integer (Euclidean) division.  (The fee
identities in fact hold for every profit sign.) -/
theorem c1_route_profit_identity (svc : ArbitrageService) (o : ChainOracle)
    (pair : TokenPair) (testAmount : ℚ) (pancakeFirst : Bool) (lq : LegQuotes)
    (h : runTriangularLegs svc o pair testAmount pancakeFirst = Except.ok lq) :
    ∃ r, checkTriangularArbitrage svc o pair testAmount pancakeFirst = Except.ok r ∧
      r.targetAmount = lq.amountIn ∧
      r.profit = lq.out3 - lq.amountIn ∧
      (0 < r.profit →
        r.platformFee + r.userProfit = r.profit ∧
        r.platformFee = Int.ediv r.profit 10) := by
  rw [checkTriangularArbitrage, h]
  refine ⟨_, rfl, rfl, rfl, ?_⟩
  intro _
  refine ⟨?_, rfl⟩
  show Int.ediv (lq.out3 - lq.amountIn) 10 +
      (lq.out3 - lq.amountIn - Int.ediv (lq.out3 - lq.amountIn) 10) =
      lq.out3 - lq.amountIn
  omega

/-- Witness for C1: a concrete successful pricing attempt (all legs quoted
by `wOracle`, profit 3 > 0) satisfying the profit and fee-split
identities. -/
theorem c1_route_profit_identity_witness :
    runTriangularLegs wSvc wOracle wPair 100 true = Except.ok wLegs ∧
    (∃ r, checkTriangularArbitrage wSvc wOracle wPair 100 true = Except.ok r ∧
      r.targetAmount = wLegs.amountIn ∧
      r.profit = wLegs.out3 - wLegs.amountIn ∧
      (0 < r.profit →
        r.platformFee + r.userProfit = r.profit ∧
        r.platformFee = Int.ediv r.profit 10)) :=
  ⟨by decide,
   c1_route_profit_identity wSvc wOracle wPair 100 true wLegs
     (by decide)⟩

/-- **C2 (amended)** For every quote call with a path of length ≥ 2 of
non-zero addresses with no two adjacent entries equal and a positive input:
a successful result has the path's length, has every element positive, and
is the venue's answer verbatim — so its first element equals the input
amount only when the venue's answer starts with the input, which
`GetAmountsOut` does not enforce; and any venue answer of the right length
containing a non-positive element (first included) is surfaced as a
liquidity failure (`zeroOutput`), never returned. -/
theorem c2_quote_postconditions (venueAnswer : Option (List Int))
    (amountIn : Int) (path : List Addr)
    (hlen : 2 ≤ path.length) (hpos : 0 < amountIn)
    (h0 : ∀ a ∈ path, a ≠ 0)
    (hadj : List.Chain' (fun a b => a ≠ b) path) :
    (∀ res, getAmountsOut venueAnswer amountIn path = Except.ok res →
      res.length = path.length ∧ (∀ x ∈ res, 0 < x) ∧ venueAnswer = some res) ∧
    (∀ ans, venueAnswer = some ans → ans.length = path.length →
      (∃ x ∈ ans, x ≤ 0) →
      ∃ j, getAmountsOut venueAnswer amountIn path =
        Except.error (QuoteErr.zeroOutput j)) := by
  have hv : pathCheck none path 0 = none :=
    pathCheck_eq_none path none 0 h0 hadj (by intro p a hp _; cases hp)
  have he := getAmountsOut_eval venueAnswer amountIn path (by omega) (by omega) hv
  constructor
  · intro res hres
    rw [he] at hres
    cases venueAnswer with
    | none => cases hres
    | some amounts =>
      have hres' :
          (if amounts.length ≠ path.length then
             Except.error (QuoteErr.badLength amounts.length path.length)
           else
             match firstNonPosIdx amounts 0 with
             | some i => Except.error (QuoteErr.zeroOutput i)
             | none => Except.ok amounts) = Except.ok res := hres
      by_cases hl : amounts.length ≠ path.length
      · rw [if_pos hl] at hres'; cases hres'
      · rw [if_neg hl] at hres'
        cases hfp : firstNonPosIdx amounts 0 with
        | some i => rw [hfp] at hres'; cases hres'
        | none =>
          rw [hfp] at hres'
          injection hres' with hres'
          subst hres'
          exact ⟨by omega, firstNonPosIdx_eq_none _ 0 hfp, rfl⟩
  · intro ans hans hlp hneg
    subst hans
    rcases firstNonPosIdx_eq_some ans 0 hneg with ⟨j, hj⟩
    refine ⟨j, ?_⟩
    rw [he]
    show (if ans.length ≠ path.length then
            Except.error (QuoteErr.badLength ans.length path.length)
          else
            match firstNonPosIdx ans 0 with
            | some i => Except.error (QuoteErr.zeroOutput i)
            | none => Except.ok ans) = Except.error (QuoteErr.zeroOutput j)
    rw [if_neg (by omega), hj]

/-- Witness for C2: path `[1, 2]`, input 5, venue answer `[5, 9]` — the
hypotheses hold and both conclusions are realized. -/
theorem c2_quote_postconditions_witness :
    (2 ≤ ([1, 2] : List Addr).length) ∧
    ((∀ res, getAmountsOut (some [5, 9]) 5 [1, 2] = Except.ok res →
      res.length = ([1, 2] : List Addr).length ∧ (∀ x ∈ res, 0 < x) ∧
        some [5, 9] = some res) ∧
     (∀ ans, (some [5, 9] : Option (List Int)) = some ans →
       ans.length = ([1, 2] : List Addr).length → (∃ x ∈ ans, x ≤ 0) →
       ∃ j, getAmountsOut (some [5, 9]) 5 [1, 2] =
         Except.error (QuoteErr.zeroOutput j))) :=
  ⟨by decide,
   c2_quote_postconditions (some [5, 9]) 5 [1, 2] (by decide) (by decide)
     (by decide) (by simp)⟩

/-- Counterexample for C2 as stated: with input 3 on the valid path
`[1, 2]`, a venue answer `[5, 7]` passes every check of `GetAmountsOut`
and is returned although its first element 5 differs from the input 3 —
the adapter never compares `result[0]` with the input amount. -/
theorem c2_quote_postconditions_counterexample :
    getAmountsOut (some [5, 7]) 3 [1, 2] = Except.ok [5, 7] ∧
    (([5, 7] : List Int).getD 0 0 = 5) ∧ ¬ ((5 : Int) = 3) := by
  refine ⟨by decide, by decide, by decide⟩

/-- **C3 (amended)** The acceptance rule of the enhanced scan, as the code
implements it: a route is selected iff its STORED `ProfitPercent` — which
by `checkTriangularArbitrage` is the raw fraction `profit/input` already
reduced by the flat 0.1 % heuristic (part (e)) — minus the category gas
adjustment reaches the category minimum, so the flat heuristic and the
category adjustment are both subtracted; when both directions qualify the
strictly higher adjusted profit wins, ties going to the pancake-first
direction; the category constants are meme 0.5 % / 0.15 % and stable
0.1 % / 0.08 %, both strictly increasing with volatility. -/
theorem c3_policy_amended
    (r1 r2 : Except ArbErr ArbitrageResult) (minProfit gasAdjustment : ℚ)
    (svc : ArbitrageService) (o : ChainOracle) (pair : TokenPair)
    (testAmount : ℚ) (dir : Bool) (r : ArbitrageResult) :
    (∀ res d adj, selectBestRoute r1 r2 minProfit gasAdjustment = some (res, d, adj) →
       adj = res.profitPercent - gasAdjustment ∧ minProfit ≤ adj ∧
       (d = true → r1 = Except.ok res) ∧ (d = false → r2 = Except.ok res)) ∧
    ((∀ res, r1 = Except.ok res → res.profitPercent - gasAdjustment < minProfit) →
     (∀ res, r2 = Except.ok res → res.profitPercent - gasAdjustment < minProfit) →
     selectBestRoute r1 r2 minProfit gasAdjustment = none) ∧
    (∀ a b, r1 = Except.ok a → r2 = Except.ok b →
       minProfit ≤ a.profitPercent - gasAdjustment →
       minProfit ≤ b.profitPercent - gasAdjustment →
       selectBestRoute r1 r2 minProfit gasAdjustment =
         (if a.profitPercent < b.profitPercent then
            some (b, false, b.profitPercent - gasAdjustment)
          else some (a, true, a.profitPercent - gasAdjustment))) ∧
    (getMinProfitForCategory "meme" = 5 / 1000 ∧
     getGasAdjustmentForCategory "meme" = 15 / 10000 ∧
     getMinProfitForCategory "stable" = 1 / 1000 ∧
     getGasAdjustmentForCategory "stable" = 8 / 10000 ∧
     getMinProfitForCategory "stable" < getMinProfitForCategory "established" ∧
     getMinProfitForCategory "established" < getMinProfitForCategory "volatile" ∧
     getMinProfitForCategory "volatile" < getMinProfitForCategory "meme" ∧
     getGasAdjustmentForCategory "stable" < getGasAdjustmentForCategory "established" ∧
     getGasAdjustmentForCategory "established" < getGasAdjustmentForCategory "volatile" ∧
     getGasAdjustmentForCategory "volatile" < getGasAdjustmentForCategory "meme") ∧
    (checkTriangularArbitrage svc o pair testAmount dir = Except.ok r →
     0 < r.targetAmount →
     r.profitPercent = (r.profit : ℚ) / (r.targetAmount : ℚ) - 1 / 1000) := by
  refine ⟨?_, ?_, ?_, by decide, ?_⟩
  · intro res d adj h
    cases r1 with
    | error e1 =>
      cases r2 with
      | error e2 => simp [selectBestRoute] at h
      | ok b =>
        simp only [selectBestRoute] at h
        by_cases hb : minProfit ≤ b.profitPercent - gasAdjustment
        · rw [if_pos hb] at h
          cases h
          refine ⟨rfl, hb, ?_, ?_⟩
          · intro hd; cases hd
          · intro _; rfl
        · rw [if_neg hb] at h; cases h
    | ok a =>
      cases r2 with
      | error e2 =>
        simp only [selectBestRoute] at h
        by_cases ha : minProfit ≤ a.profitPercent - gasAdjustment
        · rw [if_pos ha] at h
          cases h
          refine ⟨rfl, ha, ?_, ?_⟩
          · intro _; rfl
          · intro hd; cases hd
        · rw [if_neg ha] at h; cases h
      | ok b =>
        simp only [selectBestRoute] at h
        by_cases ha : minProfit ≤ a.profitPercent - gasAdjustment
        · rw [if_pos ha] at h
          have h' : (if minProfit ≤ b.profitPercent - gasAdjustment ∧
                a.profitPercent - gasAdjustment < b.profitPercent - gasAdjustment then
              some (b, false, b.profitPercent - gasAdjustment)
            else some (a, true, a.profitPercent - gasAdjustment)) =
              some (res, d, adj) := h
          by_cases hb : minProfit ≤ b.profitPercent - gasAdjustment ∧
              a.profitPercent - gasAdjustment < b.profitPercent - gasAdjustment
          · rw [if_pos hb] at h'
            cases h'
            refine ⟨rfl, hb.1, ?_, ?_⟩
            · intro hd; cases hd
            · intro _; rfl
          · rw [if_neg hb] at h'
            cases h'
            refine ⟨rfl, ha, ?_, ?_⟩
            · intro _; rfl
            · intro hd; cases hd
        · rw [if_neg ha] at h
          have h' : (if minProfit ≤ b.profitPercent - gasAdjustment then
              some (b, false, b.profitPercent - gasAdjustment) else none) =
              some (res, d, adj) := h
          by_cases hb : minProfit ≤ b.profitPercent - gasAdjustment
          · rw [if_pos hb] at h'
            cases h'
            refine ⟨rfl, hb, ?_, ?_⟩
            · intro hd; cases hd
            · intro _; rfl
          · rw [if_neg hb] at h'; cases h'
  · intro h1 h2
    cases r1 with
    | error e1 =>
      cases r2 with
      | error e2 => simp [selectBestRoute]
      | ok b =>
        simp only [selectBestRoute]
        rw [if_neg (not_le.mpr (h2 b rfl))]
    | ok a =>
      cases r2 with
      | error e2 =>
        simp only [selectBestRoute]
        rw [if_neg (not_le.mpr (h1 a rfl))]
      | ok b =>
        simp only [selectBestRoute]
        rw [if_neg (not_le.mpr (h1 a rfl))]
        show (if minProfit ≤ b.profitPercent - gasAdjustment then
            some (b, false, b.profitPercent - gasAdjustment) else none) = none
        rw [if_neg (not_le.mpr (h2 b rfl))]
  · intro a b ha hb hqa hqb
    subst ha; subst hb
    simp only [selectBestRoute]
    rw [if_pos hqa]
    show (if minProfit ≤ b.profitPercent - gasAdjustment ∧
        a.profitPercent - gasAdjustment < b.profitPercent - gasAdjustment then
        some (b, false, b.profitPercent - gasAdjustment)
      else some (a, true, a.profitPercent - gasAdjustment)) =
      (if a.profitPercent < b.profitPercent then
         some (b, false, b.profitPercent - gasAdjustment)
       else some (a, true, a.profitPercent - gasAdjustment))
    by_cases hab : a.profitPercent < b.profitPercent
    · rw [if_pos hab, if_pos ⟨hqb, by linarith⟩]
    · have hno : ¬ (minProfit ≤ b.profitPercent - gasAdjustment ∧
          a.profitPercent - gasAdjustment < b.profitPercent - gasAdjustment) := by
        intro hcon
        exact hab (by linarith [hcon.2])
      rw [if_neg hno, if_neg hab]
  · intro h hpos
    rw [checkTriangularArbitrage] at h
    cases hrl : runTriangularLegs svc o pair testAmount dir with
    | error e => rw [hrl] at h; cases h
    | ok lq =>
      rw [hrl] at h
      injection h with h
      subst h
      have hpos' : 0 < lq.amountIn := hpos
      show (if 0 < lq.amountIn then
              ((lq.out3 - lq.amountIn : Int) : ℚ) / ((lq.amountIn : Int) : ℚ)
            else 0) - 1 / 1000 =
          ((lq.out3 - lq.amountIn : Int) : ℚ) / ((lq.amountIn : Int) : ℚ) - 1 / 1000
      rw [if_pos hpos']

/-- Witness for C3 (amended): with both directions qualifying under the
stable thresholds, the strictly higher adjusted profit (direction two)
wins. -/
theorem c3_policy_amended_witness :
    selectBestRoute (Except.ok wResA) (Except.ok wResB) (1 / 1000) (8 / 10000) =
      (if wResA.profitPercent < wResB.profitPercent then
         some (wResB, false, wResB.profitPercent - 8 / 10000)
       else some (wResA, true, wResA.profitPercent - 8 / 10000)) ∧
    selectBestRoute (Except.ok wResA) (Except.ok wResB) (1 / 1000) (8 / 10000) =
      some (wResB, false, wResB.profitPercent - 8 / 10000) :=
  ⟨(c3_policy_amended (Except.ok wResA) (Except.ok wResB) (1 / 1000) (8 / 10000)
      wSvc wOracle wPair 100 true wResA).2.2.1 wResA wResB rfl rfl
      (by decide) (by decide),
   by decide⟩

/-- Counterexample for C3 as stated: the concrete priced route has raw
fraction 0.25 % on the stable category (min 0.1 %, gas-adj 0.08 %), so the
claim's rule `profit/input - gasAdj ≥ min` accepts it — but the code
rejects it (`selectBestRoute` returns `none`), because the stored
`ProfitPercent` additionally carries the flat 0.1 % deduction:
0.25 % − 0.1 % − 0.08 % = 0.07 % < 0.1 %. -/
theorem c3_policy_counterexample :
    checkTriangularArbitrage wSvc wOracleC3 wPair 400000 true = Except.ok wResC3 ∧
    specAcceptC3 wResC3.profit wResC3.targetAmount (getMemeCategory wPair.name) ∧
    selectBestRoute (Except.ok wResC3) (Except.error ArbErr.decimalsFailed)
      (getMinProfitForCategory (getMemeCategory wPair.name))
      (getGasAdjustmentForCategory (getMemeCategory wPair.name)) = none := by
  refine ⟨by decide, ?_, by decide⟩
  show getMinProfitForCategory (getMemeCategory wPair.name) ≤
      ((1000 : Int) : ℚ) / ((400000 : Int) : ℚ) -
        getGasAdjustmentForCategory (getMemeCategory wPair.name)
  decide

/-- **C7 (amended)** The FIXED adaptive-interval computation stays within
[10 s, 120 s] — hence is positive — for EVERY hour of day, consecutive
error count, and base interval (in or out of bounds): the final clamp
chain enforces it unconditionally.  The superseded unclamped variant
violates the bounds (see the counterexample). -/
theorem c7_adaptive_interval_bounds (hour : Nat) (baseInterval : Int)
    (consecutiveErrors : Nat) :
    10 * nsPerSecond ≤ calculateAdaptiveInterval hour baseInterval consecutiveErrors ∧
    calculateAdaptiveInterval hour baseInterval consecutiveErrors ≤ 120 * nsPerSecond ∧
    0 < calculateAdaptiveInterval hour baseInterval consecutiveErrors := by
  simp only [calculateAdaptiveInterval, nsPerSecond]
  split_ifs <;> omega

/-- Counterexample for C7 as stated: the superseded variant (part_005
lines 847–866), during a low-activity hour (03 UTC) with zero consecutive
errors and the in-bounds base interval 120 s, returns 240 s — above the
120-second maximum; and at peak hour 14 UTC from the minimal in-bounds
base 15 s it returns 10.5 s — below that variant's own 15-second base
minimum. -/
theorem c7_adaptive_interval_counterexample :
    calculateAdaptiveIntervalV2 3 (120 * nsPerSecond) 0 = 240 * nsPerSecond ∧
    120 * nsPerSecond < 240 * nsPerSecond ∧
    calculateAdaptiveIntervalV2 14 (15 * nsPerSecond) 0 = 10500000000 ∧
    10500000000 < 15 * nsPerSecond := by
  refine ⟨by decide, by decide, by decide, by decide⟩

/-- **C8 (amended)** Whenever the flash path builds its payload, the three
minimum-output bounds are computed from the borrowed INPUT amount alone —
`[amount*99/100, amount*99/100, amount*100/99]`, exact integer
multiplication before Euclidean division (characterized below) — not from
the per-leg expected outputs, which `ExecuteFlashArbitrage` never
receives. -/
theorem c8_flash_min_amounts (pair : TokenPair) (amount : Int)
    (pancakeFirst : Bool) (d : ArbitrageData) (borrowPair : Addr)
    (h : executeFlashArbitrageData pair amount pancakeFirst =
      Except.ok (d, borrowPair)) :
    d.minAmountsOut = [Int.ediv (amount * 99) 100, Int.ediv (amount * 99) 100,
      Int.ediv (amount * 100) 99] ∧
    100 * Int.ediv (amount * 99) 100 ≤ amount * 99 ∧
    amount * 99 < 100 * Int.ediv (amount * 99) 100 + 100 ∧
    99 * Int.ediv (amount * 100) 99 ≤ amount * 100 ∧
    amount * 100 < 99 * Int.ediv (amount * 100) 99 + 99 := by
  have e1 : 100 * Int.ediv (amount * 99) 100 + Int.emod (amount * 99) 100 =
      amount * 99 := Int.ediv_add_emod (amount * 99) 100
  have e2 : 0 ≤ Int.emod (amount * 99) 100 :=
    Int.emod_nonneg (amount * 99) (by norm_num)
  have e3 : Int.emod (amount * 99) 100 < 100 :=
    Int.emod_lt_of_pos (amount * 99) (by norm_num)
  have f1 : 99 * Int.ediv (amount * 100) 99 + Int.emod (amount * 100) 99 =
      amount * 100 := Int.ediv_add_emod (amount * 100) 99
  have f2 : 0 ≤ Int.emod (amount * 100) 99 :=
    Int.emod_nonneg (amount * 100) (by norm_num)
  have f3 : Int.emod (amount * 100) 99 < 99 :=
    Int.emod_lt_of_pos (amount * 100) (by norm_num)
  refine ⟨?_, by omega, by omega, by omega, by omega⟩
  · simp only [executeFlashArbitrageData] at h
    by_cases h2 : (getOtherTokens pair.tokens).length < 2
    · rw [if_pos h2] at h; cases h
    · rw [if_neg h2] at h
      by_cases hz : (if pancakeFirst then
          lookupAddr pair.pancakeswapPair
            ("WBNB-" ++ (getOtherTokens pair.tokens).getD 0 "")
        else lookupAddr pair.biswapPair
            ("WBNB-" ++ (getOtherTokens pair.tokens).getD 0 "")) = 0
      · rw [if_pos hz] at h; cases h
      · rw [if_neg hz] at h
        injection h with h
        rw [Prod.mk.injEq] at h
        rw [← h.1]

/-- Witness for C8 (amended): the concrete flash payload for `wPair` at
input 100 carries the bounds `[100*99/100, 100*99/100, 100*100/99] =
[99, 99, 101]`. -/
theorem c8_flash_min_amounts_witness :
    executeFlashArbitrageData wPair 100 true = Except.ok (wFlashData, 7) ∧
    wFlashData.minAmountsOut = [Int.ediv ((100 : Int) * 99) 100,
      Int.ediv ((100 : Int) * 99) 100, Int.ediv ((100 : Int) * 100) 99] :=
  ⟨by decide, (c8_flash_min_amounts wPair 100 true wFlashData 7 (by decide)).1⟩

/-- Counterexample for C8 as stated: the concrete pricing run quotes the
three legs' expected outputs as 200 / 300 / 400 for input 100, so the
claim's bounds (99 % of each forward leg's expected output, 100/99 of the
repay leg's) would be [198, 297, 404]; the code builds [99, 99, 101] —
computed from the input amount, ignoring the leg outputs entirely. -/
theorem c8_flash_min_amounts_counterexample :
    runTriangularLegs wSvc wOracleLegs wPair 100 true =
      Except.ok { amountIn := 100, out1 := 200, out2 := 300, out3 := 400,
                  tokenA := 1, tokenB := 3, tokenC := 2 } ∧
    executeFlashArbitrageData wPair 100 true = Except.ok (wFlashData, 7) ∧
    wFlashData.minAmountsOut = [99, 99, 101] ∧
    specFlashMinAmounts 200 300 400 = [198, 297, 404] ∧
    ¬ (([99, 99, 101] : List Int) = [198, 297, 404]) := by
  refine ⟨by decide, by decide, by decide, by decide, by decide⟩

/-- **C10** `FindEnhancedArbitrageOpportunities` returns a nil error on
every invocation — quote failures, execution failures and empty passes are
absorbed — so the scheduler's error handling around it (including its "No
enhanced opportunities" message check) never observes an error. -/
theorem c10_enhanced_scan_never_errors (svc : ArbitrageService)
    (o : ChainOracle) (exec : ExecOracle) (pairs : List TokenPair) :
    (findEnhancedArbitrageOpportunities svc o exec pairs).1 = none ∧
    performEnhancedScanError svc o exec pairs = none :=
  ⟨rfl, rfl⟩

/-- Counting successful executions distributes over cons. -/
theorem execSuccessCount_cons (e : Event) (l : List Event) :
    execSuccessCount (e :: l) =
      (if isSuccessfulExec e = true then 1 else 0) + execSuccessCount l := by
  simp only [execSuccessCount, List.filter_cons]
  by_cases h : isSuccessfulExec e = true
  · rw [if_pos h, if_pos h, List.length_cons]; omega
  · rw [if_neg h, if_neg h]; omega

/-- Counting successful executions distributes over append. -/
theorem execSuccessCount_append (l1 l2 : List Event) :
    execSuccessCount (l1 ++ l2) = execSuccessCount l1 + execSuccessCount l2 := by
  simp [execSuccessCount, List.filter_append]

/-- An execution event is a successful one exactly when its flag is set. -/
theorem isSuccessfulExec_executed (d s : Bool) :
    isSuccessfulExec (Event.executed d s) = s := by
  cases s <;> rfl

/-- The amount loop of the enhanced scan executes successfully exactly when
it reports an opportunity, and then the successful execution is its last
event. -/
theorem scanAmounts_spec (svc : ArbitrageService) (o : ChainOracle)
    (exec : ExecOracle) (pair : TokenPair) (minP gasA : ℚ) :
    ∀ amounts : List ℚ,
      execSuccessCount (scanAmounts svc o exec pair minP gasA amounts).2 =
        (if (scanAmounts svc o exec pair minP gasA amounts).1 = true then 1 else 0) ∧
      ((scanAmounts svc o exec pair minP gasA amounts).1 = true →
        ∃ pre d, (scanAmounts svc o exec pair minP gasA amounts).2 =
          pre ++ [Event.executed d true]) := by
  intro amounts
  induction amounts with
  | nil => exact ⟨rfl, by intro h; cases h⟩
  | cons amt rest ih =>
    simp only [scanAmounts]
    by_cases hb : ((checkTriangularArbitrage svc o pair amt true).isOk = false ∧
        (checkTriangularArbitrage svc o pair amt false).isOk = false)
    · rw [if_pos hb]
      refine ⟨?_, ?_⟩
      · show execSuccessCount
            (Event.bothRoutesFailed :: (scanAmounts svc o exec pair minP gasA rest).2) =
          (if (scanAmounts svc o exec pair minP gasA rest).1 = true then 1 else 0)
        rw [execSuccessCount_cons,
          if_neg (by decide : ¬ (isSuccessfulExec Event.bothRoutesFailed = true)), ih.1]
        omega
      · intro hf
        have hf' : (scanAmounts svc o exec pair minP gasA rest).1 = true := hf
        rcases ih.2 hf' with ⟨pre, d, hd⟩
        refine ⟨Event.bothRoutesFailed :: pre, d, ?_⟩
        show Event.bothRoutesFailed :: (scanAmounts svc o exec pair minP gasA rest).2 =
          (Event.bothRoutesFailed :: pre) ++ [Event.executed d true]
        rw [hd, List.cons_append]
    · rw [if_neg hb]
      cases hsel : selectBestRoute (checkTriangularArbitrage svc o pair amt true)
          (checkTriangularArbitrage svc o pair amt false) minP gasA with
      | none => simp only [hsel]; exact ih
      | some trip =>
        rcases trip with ⟨best, dir, adj⟩
        simp only [hsel]
        refine ⟨?_, ?_⟩
        · show execSuccessCount [Event.executed dir (exec pair best.targetAmount dir)] =
            (if exec pair best.targetAmount dir = true then 1 else 0)
          rw [execSuccessCount_cons, isSuccessfulExec_executed]
          show (if exec pair best.targetAmount dir = true then 1 else 0) + 0 =
            (if exec pair best.targetAmount dir = true then 1 else 0)
          omega
        · intro hf
          have hf' : exec pair best.targetAmount dir = true := hf
          refine ⟨[], dir, ?_⟩
          show [Event.executed dir (exec pair best.targetAmount dir)] =
            [] ++ [Event.executed dir true]
          rw [hf']
          rfl

/-- **C9 (amended)** One enhanced scan pass performs at most one
successful execution, and stops at it: when the pass reports success its
event trace ends with the successful execution (no further triple or
amount is evaluated).  Triples are visited in the order of the static
`TokenPairs` slice (`scanPairs` recurses left to right) — which, for the
cited static table, is NOT sorted by the `Priority` field (see the
counterexample). -/
theorem c9_single_execution_per_pass (svc : ArbitrageService)
    (o : ChainOracle) (exec : ExecOracle) (pairs : List TokenPair) :
    execSuccessCount (scanPairs svc o exec pairs).2 ≤ 1 ∧
    ((scanPairs svc o exec pairs).1 = true →
      ∃ pre d, (scanPairs svc o exec pairs).2 = pre ++ [Event.executed d true]) := by
  induction pairs with
  | nil =>
    refine ⟨?_, ?_⟩
    · show (0 : Nat) ≤ 1
      omega
    · intro h
      exact absurd (h : false = true) Bool.false_ne_true
  | cons pair rest ih =>
    simp only [scanPairs]
    have hs := scanAmounts_spec svc o exec pair
      (getMinProfitForCategory (getMemeCategory pair.name))
      (getGasAdjustmentForCategory (getMemeCategory pair.name)) pair.testAmounts
    by_cases hf : (scanAmounts svc o exec pair
        (getMinProfitForCategory (getMemeCategory pair.name))
        (getGasAdjustmentForCategory (getMemeCategory pair.name))
        pair.testAmounts).1 = true
    · rw [if_pos hf]
      refine ⟨?_, ?_⟩
      · show execSuccessCount (scanAmounts svc o exec pair
            (getMinProfitForCategory (getMemeCategory pair.name))
            (getGasAdjustmentForCategory (getMemeCategory pair.name))
            pair.testAmounts).2 ≤ 1
        rw [hs.1, if_pos hf]
      · intro _
        show ∃ pre d, (scanAmounts svc o exec pair
            (getMinProfitForCategory (getMemeCategory pair.name))
            (getGasAdjustmentForCategory (getMemeCategory pair.name))
            pair.testAmounts).2 = pre ++ [Event.executed d true]
        exact hs.2 hf
    · rw [if_neg hf]
      refine ⟨?_, ?_⟩
      · show execSuccessCount ((scanAmounts svc o exec pair
            (getMinProfitForCategory (getMemeCategory pair.name))
            (getGasAdjustmentForCategory (getMemeCategory pair.name))
            pair.testAmounts).2 ++ (scanPairs svc o exec rest).2) ≤ 1
        rw [execSuccessCount_append, hs.1, if_neg hf]
        have h1 := ih.1
        omega
      · intro hfr
        have hfr' : (scanPairs svc o exec rest).1 = true := hfr
        rcases ih.2 hfr' with ⟨pre, d, hd⟩
        refine ⟨(scanAmounts svc o exec pair
          (getMinProfitForCategory (getMemeCategory pair.name))
          (getGasAdjustmentForCategory (getMemeCategory pair.name))
          pair.testAmounts).2 ++ pre, d, ?_⟩
        show (scanAmounts svc o exec pair
            (getMinProfitForCategory (getMemeCategory pair.name))
            (getGasAdjustmentForCategory (getMemeCategory pair.name))
            pair.testAmounts).2 ++ (scanPairs svc o exec rest).2 =
          ((scanAmounts svc o exec pair
            (getMinProfitForCategory (getMemeCategory pair.name))
            (getGasAdjustmentForCategory (getMemeCategory pair.name))
            pair.testAmounts).2 ++ pre) ++ [Event.executed d true]
        rw [hd, List.append_assoc]

/-- Witness for C9 (amended): a concrete pass over the single triple
`wPair` finds and executes one opportunity; its trace is exactly one
successful execution. -/
theorem c9_single_execution_per_pass_witness :
    scanPairs wSvc wOracle wExecOk [wPair] = (true, [Event.executed true true]) ∧
    (execSuccessCount (scanPairs wSvc wOracle wExecOk [wPair]).2 ≤ 1 ∧
     ((scanPairs wSvc wOracle wExecOk [wPair]).1 = true →
       ∃ pre d, (scanPairs wSvc wOracle wExecOk [wPair]).2 =
         pre ++ [Event.executed d true])) :=
  ⟨by decide, c9_single_execution_per_pass wSvc wOracle wExecOk [wPair]⟩

/-- Counterexample for C9 as stated: the scan visits the static table in
slice order, but the cited `InitializeTokenPairs` table is not in priority
order — its priorities in iteration order are [2, 2, 1, 3], so the
priority-1 triple WBNB-BSW-USDT (index 2) is visited after two priority-2
triples. -/
theorem c9_priority_order_counterexample :
    initializeTokenPairs.map TokenPair.priority = [2, 2, 1, 3] ∧
    (initializeTokenPairs.map TokenPair.name).getD 2 "" = "WBNB-BSW-USDT" ∧
    (initializeTokenPairs.map TokenPair.priority).getD 2 0 <
      (initializeTokenPairs.map TokenPair.priority).getD 0 0 ∧
    ¬ List.Sorted (fun a b => a ≤ b) (initializeTokenPairs.map TokenPair.priority) := by
  refine ⟨by decide, by decide, by decide, ?_⟩
  intro hs
  have hl : initializeTokenPairs.map TokenPair.priority = [2, 2, 1, 3] := by decide
  rw [hl] at hs
  have h02 : (2 : Int) ≤ 1 := (List.sorted_cons.mp hs).1 1 (by decide)
  omega

/-- **C4 (amended)** Only the legacy scan (`FindArbitrageOpportunities`)
performs a confirmation pass.  There, whenever `ExecuteArbitrage` is
invoked for a direction, `ConfirmProfitability` succeeded for that
direction with a value at least `Config.MinProfit` and the confirmation
preceded the execution in the event order; and whenever the confirmation
errors or returns below `MinProfit`, no execution happens for that amount
(no transaction is submitted).  The enhanced scan executes accepted
opportunities with NO confirmation pass at all (see the
counterexample). -/
theorem c4_confirmation_gates_legacy_execution (svc : ArbitrageService)
    (o : ChainOracle) (exec : ExecOracle) (pair : TokenPair) (amount : ℚ) :
    (∀ d s, Event.executed d s ∈ (legacyEvaluateAmount svc o exec pair amount).1 →
      ∃ c, confirmProfitability svc o pair amount d = Except.ok c ∧
        svc.minProfit ≤ c ∧
        (legacyEvaluateAmount svc o exec pair amount).1 =
          [Event.confirmPass d c, Event.executed d s]) ∧
    (∀ d, (∀ c, confirmProfitability svc o pair amount d = Except.ok c →
        c < svc.minProfit) →
      ∀ s, Event.executed d s ∉ (legacyEvaluateAmount svc o exec pair amount).1) := by
  cases h1 : checkTriangularArbitrage svc o pair amount true with
  | error e1 =>
    refine ⟨?_, ?_⟩
    · intro d s hm
      simp [legacyEvaluateAmount, h1] at hm
    · intro d _ s hm
      simp [legacyEvaluateAmount, h1] at hm
  | ok r1 =>
    cases h2 : checkTriangularArbitrage svc o pair amount false with
    | error e2 =>
      refine ⟨?_, ?_⟩
      · intro d s hm
        simp [legacyEvaluateAmount, h1, h2] at hm
      · intro d _ s hm
        simp [legacyEvaluateAmount, h1, h2] at hm
    | ok r2 =>
      by_cases hp1 : svc.minProfit < r1.profitPercent
      · cases hc : confirmProfitability svc o pair amount true with
        | error e =>
          refine ⟨?_, ?_⟩
          · intro d s hm
            simp [legacyEvaluateAmount, h1, h2, if_pos hp1, hc] at hm
          · intro d _ s hm
            simp [legacyEvaluateAmount, h1, h2, if_pos hp1, hc] at hm
        | ok c =>
          by_cases hcl : c < svc.minProfit
          · refine ⟨?_, ?_⟩
            · intro d s hm
              simp [legacyEvaluateAmount, h1, h2, if_pos hp1, hc, if_pos hcl] at hm
            · intro d _ s hm
              simp [legacyEvaluateAmount, h1, h2, if_pos hp1, hc, if_pos hcl] at hm
          · by_cases hfz : svc.flashContract ≠ 0
            · refine ⟨?_, ?_⟩
              · intro d s hm
                simp only [legacyEvaluateAmount, h1, h2, if_pos hp1, hc,
                  if_neg hcl, if_pos hfz] at hm
                simp only [List.mem_cons, List.mem_singleton] at hm
                rcases hm with hm | hm | hm
                · cases hm
                · rcases Event.executed.inj hm with ⟨rfl, rfl⟩
                  refine ⟨c, hc, not_lt.mp hcl, ?_⟩
                  simp [legacyEvaluateAmount, h1, h2, if_pos hp1, hc,
                    if_neg hcl, if_pos hfz]
                · cases hm
              · intro d hconf s hm
                simp only [legacyEvaluateAmount, h1, h2, if_pos hp1, hc,
                  if_neg hcl, if_pos hfz] at hm
                simp only [List.mem_cons, List.mem_singleton] at hm
                rcases hm with hm | hm | hm
                · cases hm
                · rcases Event.executed.inj hm with ⟨rfl, rfl⟩
                  exact absurd (hconf c hc) hcl
                · cases hm
            · refine ⟨?_, ?_⟩
              · intro d s hm
                simp [legacyEvaluateAmount, h1, h2, if_pos hp1, hc,
                  if_neg hcl, if_neg hfz] at hm
              · intro d _ s hm
                simp [legacyEvaluateAmount, h1, h2, if_pos hp1, hc,
                  if_neg hcl, if_neg hfz] at hm
      · by_cases hp2 : svc.minProfit < r2.profitPercent
        · cases hc : confirmProfitability svc o pair amount false with
          | error e =>
            refine ⟨?_, ?_⟩
            · intro d s hm
              simp [legacyEvaluateAmount, h1, h2, if_neg hp1, if_pos hp2, hc] at hm
            · intro d _ s hm
              simp [legacyEvaluateAmount, h1, h2, if_neg hp1, if_pos hp2, hc] at hm
          | ok c =>
            by_cases hcl : c < svc.minProfit
            · refine ⟨?_, ?_⟩
              · intro d s hm
                simp [legacyEvaluateAmount, h1, h2, if_neg hp1, if_pos hp2, hc,
                  if_pos hcl] at hm
              · intro d _ s hm
                simp [legacyEvaluateAmount, h1, h2, if_neg hp1, if_pos hp2, hc,
                  if_pos hcl] at hm
            · by_cases hfz : svc.flashContract ≠ 0
              · refine ⟨?_, ?_⟩
                · intro d s hm
                  simp only [legacyEvaluateAmount, h1, h2, if_neg hp1, if_pos hp2,
                    hc, if_neg hcl, if_pos hfz] at hm
                  simp only [List.mem_cons, List.mem_singleton] at hm
                  rcases hm with hm | hm | hm
                  · cases hm
                  · rcases Event.executed.inj hm with ⟨rfl, rfl⟩
                    refine ⟨c, hc, not_lt.mp hcl, ?_⟩
                    simp [legacyEvaluateAmount, h1, h2, if_neg hp1, if_pos hp2,
                      hc, if_neg hcl, if_pos hfz]
                  · cases hm
                · intro d hconf s hm
                  simp only [legacyEvaluateAmount, h1, h2, if_neg hp1, if_pos hp2,
                    hc, if_neg hcl, if_pos hfz] at hm
                  simp only [List.mem_cons, List.mem_singleton] at hm
                  rcases hm with hm | hm | hm
                  · cases hm
                  · rcases Event.executed.inj hm with ⟨rfl, rfl⟩
                    exact absurd (hconf c hc) hcl
                  · cases hm
              · refine ⟨?_, ?_⟩
                · intro d s hm
                  simp [legacyEvaluateAmount, h1, h2, if_neg hp1, if_pos hp2, hc,
                    if_neg hcl, if_neg hfz] at hm
                · intro d _ s hm
                  simp [legacyEvaluateAmount, h1, h2, if_neg hp1, if_pos hp2, hc,
                    if_neg hcl, if_neg hfz] at hm
        · refine ⟨?_, ?_⟩
          · intro d s hm
            simp [legacyEvaluateAmount, h1, h2, if_neg hp1, if_neg hp2] at hm
          · intro d _ s hm
            simp [legacyEvaluateAmount, h1, h2, if_neg hp1, if_neg hp2] at hm

/-- Witness for C4 (amended): a concrete legacy evaluation that confirms
(value 2.9 % ≥ 0.5 %) and then executes, in that order. -/
theorem c4_confirmation_gates_legacy_execution_witness :
    legacyEvaluateAmount wSvc wOracle wExecOk wPair 100 =
      ([Event.confirmPass true (29 / 1000), Event.executed true true], true) ∧
    (∃ c, confirmProfitability wSvc wOracle wPair 100 true = Except.ok c ∧
      wSvc.minProfit ≤ c ∧
      (legacyEvaluateAmount wSvc wOracle wExecOk wPair 100).1 =
        [Event.confirmPass true c, Event.executed true true]) :=
  ⟨by decide,
   (c4_confirmation_gates_legacy_execution wSvc wOracle wExecOk wPair 100).1
     true true (by decide)⟩

/-- Counterexample for C4 as stated: the enhanced scan accepts and
executes a concrete opportunity while emitting NO confirmation event at
all — `FindEnhancedArbitrageOpportunities` contains no
`ConfirmProfitability` call, so no "independent confirmation pass"
precedes the transaction. -/
theorem c4_confirmation_counterexample :
    (findEnhancedArbitrageOpportunities wSvc wOracle wExecOk [wPair]).2 =
      [Event.executed true true] ∧
    (∀ e ∈ (findEnhancedArbitrageOpportunities wSvc wOracle wExecOk [wPair]).2,
      isConfirmEvent e = false) ∧
    Event.executed true true ∈
      (findEnhancedArbitrageOpportunities wSvc wOracle wExecOk [wPair]).2 := by
  refine ⟨by decide, by decide, by decide⟩

/-- **C5** Evaluation of `WithRetry` at the decisive inputs, exhibiting
the divergence between the code and its own "Don't count RPC switch
attempts against retry limit" comment: (1) an operation whose first three
calls fail with the connection-class error "timeout" (each endpoint
switch succeeding) and whose fourth call would succeed nevertheless fails
with the post-loop "failed after all retries" error — the Go `continue`
still executes the loop's `attempt++`, so connection-class retries DO
consume the three-attempt budget, and the surfaced error carries neither
attempt count nor last error; (2) two connection-class failures followed
by a success do succeed overall, but only because the success lands on the
final retry slot; (3) a non-connection error ("execution reverted")
consumes slots with backoff delays 2 s then 4 s and is finally wrapped
with the operation name and attempt count 3. -/
theorem c5_withRetry_consumes_slots_on_connection_errors :
    withRetry "GetTokenBalance" (fun n => if n < 3 then some "timeout" else none)
        (fun _ => true) =
      (RetryOutcome.failedAllRetries "GetTokenBalance", []) ∧
    withRetry "GetTokenBalance" (fun n => if n < 2 then some "timeout" else none)
        (fun _ => true) =
      (RetryOutcome.ok 2, []) ∧
    withRetry "SuggestGasPrice"
        (fun n => if n < 3 then some "execution reverted" else none)
        (fun _ => true) =
      (RetryOutcome.failedAfterMaxAttempts "SuggestGasPrice" 3 "execution reverted",
       [2, 4]) ∧
    isConnectionError "timeout" = true ∧
    isConnectionError "execution reverted" = false := by
  refine ⟨by decide, by decide, by decide, by decide, by decide⟩

/-- A failure mark survives the endpoint loop with its timestamp. -/
theorem tryEndpoints_preserves_mark (eps : List String) (alive : String → Bool)
    (now : Nat) : ∀ (idxs : List Nat) (fm : FailMap) (u : String) (t : Nat),
    lookupFailedTime fm u = some t →
    lookupFailedTime (tryEndpoints eps alive now idxs fm).failMap u = some t := by
  intro idxs
  induction idxs with
  | nil => intro fm u t h; exact h
  | cons i rest ih =>
    intro fm u t h
    simp only [tryEndpoints]
    by_cases hsk : (lookupFailedTime fm (eps.getD i "")).isSome
    · rw [if_pos hsk]
      exact ih fm u t h
    · rw [if_neg hsk]
      by_cases hal : alive (eps.getD i "") = true
      · rw [if_pos hal]
        exact h
      · rw [if_neg hal]
        apply ih
        simp only [lookupFailedTime]
        by_cases he : eps.getD i "" = u
        · exfalso
          rw [he] at hsk
          rw [h] at hsk
          simp at hsk
        · rw [if_neg he]
          exact h

/-- Every endpoint the loop actually attempts was absent from the failed
map it started with. -/
theorem tryEndpoints_attempted_fresh (eps : List String) (alive : String → Bool)
    (now : Nat) : ∀ (idxs : List Nat) (fm : FailMap) (u : String),
    u ∈ (tryEndpoints eps alive now idxs fm).attempted →
    lookupFailedTime fm u = none := by
  intro idxs
  induction idxs with
  | nil => intro fm u h; cases h
  | cons i rest ih =>
    intro fm u h
    simp only [tryEndpoints] at h
    by_cases hsk : (lookupFailedTime fm (eps.getD i "")).isSome
    · rw [if_pos hsk] at h
      exact ih fm u h
    · rw [if_neg hsk] at h
      by_cases hal : alive (eps.getD i "") = true
      · rw [if_pos hal] at h
        have h' : u ∈ [eps.getD i ""] := h
        rw [List.mem_singleton] at h'
        subst h'
        exact Option.not_isSome_iff_eq_none.mp hsk
      · rw [if_neg hal] at h
        have h' : u ∈ eps.getD i "" ::
            (tryEndpoints eps alive now rest ((eps.getD i "", now) :: fm)).attempted := h
        rw [List.mem_cons] at h'
        rcases h' with rfl | h'
        · exact Option.not_isSome_iff_eq_none.mp hsk
        · have h2 := ih ((eps.getD i "", now) :: fm) u h'
          simp only [lookupFailedTime] at h2
          by_cases he : eps.getD i "" = u
          · rw [if_pos he] at h2; cases h2
          · rw [if_neg he] at h2; exact h2

/-- When the loop finds no live endpoint, every endpoint it visited is in
the final failed map. -/
theorem tryEndpoints_none_all_marked (eps : List String) (alive : String → Bool)
    (now : Nat) : ∀ (idxs : List Nat) (fm : FailMap),
    (tryEndpoints eps alive now idxs fm).found = none →
    ∀ i ∈ idxs,
      (lookupFailedTime (tryEndpoints eps alive now idxs fm).failMap
        (eps.getD i "")).isSome := by
  intro idxs
  induction idxs with
  | nil => intro fm _ i hi; cases hi
  | cons j rest ih =>
    intro fm hnone i hi
    simp only [tryEndpoints] at hnone ⊢
    by_cases hsk : (lookupFailedTime fm (eps.getD j "")).isSome
    · rw [if_pos hsk] at hnone ⊢
      rw [List.mem_cons] at hi
      rcases hi with rfl | hi
      · rcases Option.isSome_iff_exists.mp hsk with ⟨t, ht⟩
        rw [tryEndpoints_preserves_mark eps alive now rest fm _ t ht]
        rfl
      · exact ih fm hnone i hi
    · rw [if_neg hsk] at hnone ⊢
      by_cases hal : alive (eps.getD j "") = true
      · rw [if_pos hal] at hnone
        cases hnone
      · rw [if_neg hal] at hnone ⊢
        rw [List.mem_cons] at hi
        rcases hi with rfl | hi
        · have hm : lookupFailedTime ((eps.getD i "", now) :: fm) (eps.getD i "") =
              some now := by
            simp [lookupFailedTime]
          rw [tryEndpoints_preserves_mark eps alive now rest _ _ now hm]
          rfl
        · exact ih ((eps.getD j "", now) :: fm) hnone i hi

/-- The endpoint the loop selects is not in the final failed map. -/
theorem tryEndpoints_found_not_marked (eps : List String) (alive : String → Bool)
    (now : Nat) : ∀ (idxs : List Nat) (fm : FailMap) (u : String) (i : Nat),
    (tryEndpoints eps alive now idxs fm).found = some (u, i) →
    lookupFailedTime (tryEndpoints eps alive now idxs fm).failMap u = none := by
  intro idxs
  induction idxs with
  | nil => intro fm u i h; cases h
  | cons j rest ih =>
    intro fm u i h
    simp only [tryEndpoints] at h ⊢
    by_cases hsk : (lookupFailedTime fm (eps.getD j "")).isSome
    · rw [if_pos hsk] at h ⊢
      exact ih fm u i h
    · rw [if_neg hsk] at h ⊢
      by_cases hal : alive (eps.getD j "") = true
      · rw [if_pos hal] at h ⊢
        injection h with h
        rw [Prod.mk.injEq] at h
        rw [← h.1]
        exact Option.not_isSome_iff_eq_none.mp hsk
      · rw [if_neg hal] at h ⊢
        exact ih ((eps.getD j "", now) :: fm) u i h

/-- The failover scenario at loop level: indices `l` (all dead) followed
by a live index `j`, all starting unmarked with pairwise-distinct URLs:
the loop selects endpoint `j`, marks exactly the dead ones at `now`, and
every final mark carries timestamp `now` (given the initial ones did). -/
theorem tryEndpoints_scenario (eps : List String) (alive : String → Bool)
    (now : Nat) : ∀ (l : List Nat) (j : Nat) (fm : FailMap),
    (∀ i ∈ l, alive (eps.getD i "") = false) →
    alive (eps.getD j "") = true →
    (∀ i ∈ l ++ [j], lookupFailedTime fm (eps.getD i "") = none) →
    ((l ++ [j]).map (fun i => eps.getD i "")).Nodup →
    (∀ p ∈ fm, p.2 = now) →
    (tryEndpoints eps alive now (l ++ [j]) fm).found = some (eps.getD j "", j) ∧
    (∀ i ∈ l, lookupFailedTime (tryEndpoints eps alive now (l ++ [j]) fm).failMap
        (eps.getD i "") = some now) ∧
    lookupFailedTime (tryEndpoints eps alive now (l ++ [j]) fm).failMap
        (eps.getD j "") = none ∧
    (∀ p ∈ (tryEndpoints eps alive now (l ++ [j]) fm).failMap, p.2 = now) := by
  intro l
  induction l with
  | nil =>
    intro j fm _ halj hfm _ hnow
    have hj : lookupFailedTime fm (eps.getD j "") = none :=
      hfm j (by simp)
    simp only [List.nil_append, tryEndpoints]
    rw [if_neg (by rw [hj]; simp), if_pos halj]
    refine ⟨rfl, ?_, hj, hnow⟩
    intro i hi
    cases hi
  | cons i0 l ih =>
    intro j fm hdead halj hfm hnd hnow
    have hu0 : lookupFailedTime fm (eps.getD i0 "") = none :=
      hfm i0 (by simp)
    have hal0 : alive (eps.getD i0 "") = false :=
      hdead i0 (List.mem_cons_self i0 l)
    have hmap : ((i0 :: l) ++ [j]).map (fun i => eps.getD i "") =
        eps.getD i0 "" :: ((l ++ [j]).map (fun i => eps.getD i "")) := by
      simp
    rw [hmap] at hnd
    have hnotmem : eps.getD i0 "" ∉ ((l ++ [j]).map (fun i => eps.getD i "")) :=
      (List.nodup_cons.mp hnd).1
    have hne : ∀ i ∈ l ++ [j], eps.getD i "" ≠ eps.getD i0 "" := by
      intro i hi he
      exact hnotmem (he ▸ List.mem_map_of_mem (fun i => eps.getD i "") hi)
    have hcons : (i0 :: l) ++ [j] = i0 :: (l ++ [j]) := rfl
    rw [hcons]
    simp only [tryEndpoints]
    rw [if_neg (by rw [hu0]; simp), if_neg (by rw [hal0]; simp)]
    have ihr := ih j ((eps.getD i0 "", now) :: fm)
      (fun i hi => hdead i (List.mem_cons_of_mem i0 hi)) halj
      (by
        intro i hi
        simp only [lookupFailedTime]
        rw [if_neg fun he => (hne i hi) he.symm]
        exact hfm i (by
          rcases List.mem_append.mp hi with h | h
          · exact List.mem_append.mpr (Or.inl (List.mem_cons_of_mem i0 h))
          · exact List.mem_append.mpr (Or.inr h)))
      ((List.nodup_cons.mp hnd).2)
      (by
        intro p hp
        rcases List.mem_cons.mp hp with rfl | hp
        · rfl
        · exact hnow p hp)
    refine ⟨ihr.1, ?_, ihr.2.2.1, ihr.2.2.2⟩
    intro i hi
    rcases List.mem_cons.mp hi with rfl | hi
    · apply tryEndpoints_preserves_mark
      simp [lookupFailedTime]
    · exact ihr.2.1 i hi

/-- With `rpcIndex = 0` the round-robin order is just `0, …, n-1`. -/
theorem roundRobinIndices_zero (n : Nat) :
    roundRobinIndices 0 n = List.range n := by
  rw [roundRobinIndices]
  have h : ∀ a ∈ List.range n, (fun i => (0 + i) % n) a = id a := by
    intro a ha
    simp only [id, Nat.zero_add]
    exact Nat.mod_eq_of_lt (List.mem_range.mp ha)
  rw [List.map_congr_left h, List.map_id]

/-- Every residue below `n` appears in the round-robin order. -/
theorem mem_roundRobinIndices (start : Nat) {k n : Nat} (h : k < n) :
    k ∈ roundRobinIndices start n := by
  have hn : 0 < n := by omega
  rw [roundRobinIndices, List.mem_map]
  refine ⟨(n - start % n + k) % n, List.mem_range.mpr (Nat.mod_lt _ hn), ?_⟩
  have h1 : start % n < n := Nat.mod_lt _ hn
  conv_lhs => rw [Nat.add_mod, Nat.mod_mod_of_dvd _ dvd_rfl, ← Nat.add_mod]
  have hdm := Nat.div_add_mod start n
  have h2 : start + (n - start % n + k) = n * (start / n) + (n + k) := by omega
  rw [h2, Nat.mul_add_mod, Nat.add_mod_left, Nat.mod_eq_of_lt h]

/-- Purging leaves a map untouched when every mark is at most five minutes
old. -/
theorem purgeFailed_id_of_fresh (fm : FailMap) (now now' : Nat)
    (hall : ∀ p ∈ fm, p.2 = now) (h : now' - now ≤ 300) :
    purgeFailed fm now' = fm := by
  rw [purgeFailed, List.filter_eq_self]
  intro p hp
  rw [hall p hp]
  simpa using h

/-- Purging empties a map whose every mark is older than five minutes. -/
theorem purgeFailed_empty_of_expired (fm : FailMap) (now now' : Nat)
    (hall : ∀ p ∈ fm, p.2 = now) (h : 300 < now' - now) :
    purgeFailed fm now' = [] := by
  rw [purgeFailed, List.filter_eq_nil_iff]
  intro p hp
  rw [hall p hp]
  simp only [decide_eq_true_eq]
  omega

/-- Reading every position of a list in order reproduces the list. -/
theorem map_getD_range (l : List String) (d : String) :
    (List.range l.length).map (fun i => l.getD i d) = l := by
  induction l with
  | nil => rfl
  | cons a t ih =>
    rw [List.length_cons, List.range_succ_eq_map, List.map_cons, List.map_map]
    have h : ((fun i => (a :: t).getD i d) ∘ Nat.succ) = fun i => t.getD i d := rfl
    rw [h]
    rw [ih]
    rfl

/-- The attempted-endpoints list of a connect is that of its inner loop. -/
theorem connectToWorkingRPC_attempted (st : RPCState) (alive : String → Bool)
    (now : Nat) :
    (connectToWorkingRPC st alive now).attempted =
      (tryEndpoints st.endpoints alive now
        (roundRobinIndices st.rpcIndex st.endpoints.length)
        (purgeFailed st.failedRPCs now)).attempted := by
  simp only [connectToWorkingRPC]
  cases (tryEndpoints st.endpoints alive now
      (roundRobinIndices st.rpcIndex st.endpoints.length)
      (purgeFailed st.failedRPCs now)).found with
  | none => rfl
  | some p => rcases p with ⟨u, i⟩; rfl

/-- After any connect: either it succeeded and the installed endpoint is
not in the failed map, or it failed and every configured endpoint is. -/
theorem connectToWorkingRPC_invariant (st : RPCState) (alive : String → Bool)
    (now : Nat) :
    (∃ u, (connectToWorkingRPC st alive now).result = Except.ok u ∧
      (connectToWorkingRPC st alive now).state.currentRPC = u ∧
      lookupFailedTime (connectToWorkingRPC st alive now).state.failedRPCs u =
        none) ∨
    ((∃ e, (connectToWorkingRPC st alive now).result = Except.error e) ∧
      ∀ k, k < st.endpoints.length →
        (lookupFailedTime (connectToWorkingRPC st alive now).state.failedRPCs
          (st.endpoints.getD k "")).isSome) := by
  cases hr : (tryEndpoints st.endpoints alive now
      (roundRobinIndices st.rpcIndex st.endpoints.length)
      (purgeFailed st.failedRPCs now)).found with
  | some p =>
    rcases p with ⟨u, i⟩
    left
    refine ⟨u, ?_, ?_, ?_⟩
    · simp only [connectToWorkingRPC, hr]
    · simp only [connectToWorkingRPC, hr]
    · simp only [connectToWorkingRPC, hr]
      exact tryEndpoints_found_not_marked st.endpoints alive now _ _ u i hr
  | none =>
    right
    constructor
    · refine ⟨if (tryEndpoints st.endpoints alive now
          (roundRobinIndices st.rpcIndex st.endpoints.length)
          (purgeFailed st.failedRPCs now)).attempted.isEmpty then
          ConnErr.allMarkedFailed
        else ConnErr.allAttemptsFailed (tryEndpoints st.endpoints alive now
          (roundRobinIndices st.rpcIndex st.endpoints.length)
          (purgeFailed st.failedRPCs now)).attempted.length, ?_⟩
      simp only [connectToWorkingRPC, hr]
    · intro k hk
      have hmem := mem_roundRobinIndices st.rpcIndex hk
      have h3 := tryEndpoints_none_all_marked st.endpoints alive now
        (roundRobinIndices st.rpcIndex st.endpoints.length)
        (purgeFailed st.failedRPCs now) hr k hmem
      simp only [connectToWorkingRPC, hr]
      exact h3

/-- **C6** (i) After every connect or switch, the active endpoint is not
in the failed set unless no candidate exists (on total failure every
configured endpoint is marked failed).  (ii) With `N` endpoints of which
only the last passes the liveness probe, a first connect from the initial
state selects endpoint `N`, records endpoints `1..N-1` as failed at the
current time, and any subsequent connect within 300 s never attempts
those `N-1` endpoints (whatever the fresh probe answers); marks older
than 300 s are purged, making the endpoints eligible again. -/
theorem c6_endpoint_failover (eps : List String) (N : Nat)
    (alive : String → Bool) (now : Nat)
    (hN : eps.length = N) (h1 : 1 ≤ N) (hnd : eps.Nodup)
    (halive : ∀ u ∈ eps, (alive u = true ↔ u = eps.getD (N - 1) "")) :
    (∀ (st : RPCState) (al : String → Bool) (t : Nat),
      (∃ u, (connectToWorkingRPC st al t).result = Except.ok u ∧
        (connectToWorkingRPC st al t).state.currentRPC = u ∧
        lookupFailedTime (connectToWorkingRPC st al t).state.failedRPCs u =
          none) ∨
      ((∃ e, (connectToWorkingRPC st al t).result = Except.error e) ∧
        ∀ k, k < st.endpoints.length →
          (lookupFailedTime (connectToWorkingRPC st al t).state.failedRPCs
            (st.endpoints.getD k "")).isSome)) ∧
    (∀ (st : RPCState) (al : String → Bool) (t : Nat),
      (∃ u, (switchRPC st al t).result = Except.ok u ∧
        (switchRPC st al t).state.currentRPC = u ∧
        lookupFailedTime (switchRPC st al t).state.failedRPCs u = none) ∨
      ((∃ e, (switchRPC st al t).result = Except.error e) ∧
        ∀ k, k < st.endpoints.length →
          (lookupFailedTime (switchRPC st al t).state.failedRPCs
            (st.endpoints.getD k "")).isSome)) ∧
    ((connectToWorkingRPC (mkInitState eps) alive now).result =
      Except.ok (eps.getD (N - 1) "") ∧
     (connectToWorkingRPC (mkInitState eps) alive now).state.currentRPC =
      eps.getD (N - 1) "" ∧
     (connectToWorkingRPC (mkInitState eps) alive now).state.rpcIndex = N - 1 ∧
     (∀ i, i < N - 1 →
       lookupFailedTime
         (connectToWorkingRPC (mkInitState eps) alive now).state.failedRPCs
         (eps.getD i "") = some now) ∧
     lookupFailedTime
       (connectToWorkingRPC (mkInitState eps) alive now).state.failedRPCs
       (eps.getD (N - 1) "") = none ∧
     (∀ (alive' : String → Bool) (now' : Nat), now ≤ now' → now' - now ≤ 300 →
       ∀ i, i < N - 1 →
         eps.getD i "" ∉
           (connectToWorkingRPC
             (connectToWorkingRPC (mkInitState eps) alive now).state
             alive' now').attempted) ∧
     (∀ now'', 300 < now'' - now →
       purgeFailed
         (connectToWorkingRPC (mkInitState eps) alive now).state.failedRPCs
         now'' = [])) := by
  refine ⟨fun st al t => connectToWorkingRPC_invariant st al t,
    fun st al t => connectToWorkingRPC_invariant _ al t, ?_⟩
  have hNsucc : N - 1 + 1 = N := by omega
  have hidx : roundRobinIndices 0 eps.length =
      List.range (N - 1) ++ [N - 1] := by
    rw [roundRobinIndices_zero, hN, ← List.range_succ, Nat.succ_eq_add_one,
      hNsucc]
  have hlast : N - 1 < eps.length := by omega
  have hmemlast : eps.getD (N - 1) "" ∈ eps := by
    rw [List.getD_eq_getElem eps "" hlast]
    exact List.getElem_mem hlast
  have hdead : ∀ i ∈ List.range (N - 1), alive (eps.getD i "") = false := by
    intro i hi
    have hiN : i < N - 1 := List.mem_range.mp hi
    have hilen : i < eps.length := by omega
    have hmem : eps.getD i "" ∈ eps := by
      rw [List.getD_eq_getElem eps "" hilen]
      exact List.getElem_mem hilen
    cases hal : alive (eps.getD i "") with
    | false => rfl
    | true =>
      exfalso
      have heq := (halive _ hmem).mp hal
      have hg1 : eps.getD i "" = eps.get ⟨i, hilen⟩ :=
        (List.getD_eq_getElem eps "" hilen).trans
          (List.get_eq_getElem eps ⟨i, hilen⟩).symm
      have hg2 : eps.getD (N - 1) "" = eps.get ⟨N - 1, hlast⟩ :=
        (List.getD_eq_getElem eps "" hlast).trans
          (List.get_eq_getElem eps ⟨N - 1, hlast⟩).symm
      have : (⟨i, hilen⟩ : Fin eps.length) = ⟨N - 1, hlast⟩ :=
        (List.Nodup.get_inj_iff hnd).mp (by rw [← hg1, ← hg2, heq])
      have : i = N - 1 := congrArg Fin.val this
      omega
  have halj : alive (eps.getD (N - 1) "") = true := (halive _ hmemlast).mpr rfl
  have hndmap : ((List.range (N - 1) ++ [N - 1]).map
      (fun i => eps.getD i "")).Nodup := by
    have hr : List.range (N - 1) ++ [N - 1] = List.range eps.length := by
      rw [← List.range_succ, Nat.succ_eq_add_one, hNsucc, hN]
    rw [hr, map_getD_range]
    exact hnd
  have hT := tryEndpoints_scenario eps alive now (List.range (N - 1)) (N - 1) []
    hdead halj (fun i _ => rfl) hndmap (fun p hp => absurd hp (List.not_mem_nil p))
  have hconn : connectToWorkingRPC (mkInitState eps) alive now =
      { result := Except.ok (eps.getD (N - 1) "")
        state :=
          { endpoints := eps
            rpcIndex := N - 1
            failedRPCs := (tryEndpoints eps alive now
              (List.range (N - 1) ++ [N - 1]) []).failMap
            currentRPC := eps.getD (N - 1) ""
            isHealthy := true }
        attempted := (tryEndpoints eps alive now
          (List.range (N - 1) ++ [N - 1]) []).attempted } := by
    show ({ result := _, state := _, attempted := _ } : ConnectResult) = _
    simp only [connectToWorkingRPC, mkInitState]
    rw [show purgeFailed [] now = [] from rfl, hidx, hT.1]
  refine ⟨?_, ?_, ?_, ?_, ?_, ?_, ?_⟩
  · rw [hconn]
  · rw [hconn]
  · rw [hconn]
  · intro i hi
    rw [hconn]
    exact hT.2.1 i (List.mem_range.mpr hi)
  · rw [hconn]
    exact hT.2.2.1
  · intro alive' now' hle h300 i hi
    rw [hconn]
    intro hmem
    rw [connectToWorkingRPC_attempted] at hmem
    have hpu : purgeFailed (tryEndpoints eps alive now
        (List.range (N - 1) ++ [N - 1]) []).failMap now' =
        (tryEndpoints eps alive now
          (List.range (N - 1) ++ [N - 1]) []).failMap :=
      purgeFailed_id_of_fresh _ now now' hT.2.2.2 h300
    rw [hpu] at hmem
    have hfr := tryEndpoints_attempted_fresh _ alive' now' _ _ _ hmem
    rw [hT.2.1 i (List.mem_range.mpr hi)] at hfr
    cases hfr
  · intro now'' h300
    rw [hconn]
    exact purgeFailed_empty_of_expired _ now now'' hT.2.2.2 h300

/-- Witness for C6: three endpoints of which only the last is live; the
first connect selects "epC", marks "epA" and "epB" failed at time 50, and
a reconnect at time 200 (within five minutes) never attempts "epA". -/
theorem c6_endpoint_failover_witness :
    (connectToWorkingRPC (mkInitState ["epA", "epB", "epC"]) wAliveC6 50).result =
      Except.ok "epC" ∧
    lookupFailedTime
      (connectToWorkingRPC (mkInitState ["epA", "epB", "epC"]) wAliveC6
        50).state.failedRPCs "epA" = some 50 ∧
    "epA" ∉ (connectToWorkingRPC
      (connectToWorkingRPC (mkInitState ["epA", "epB", "epC"]) wAliveC6 50).state
      (fun _ => false) 200).attempted :=
  ⟨(c6_endpoint_failover ["epA", "epB", "epC"] 3 wAliveC6 50 rfl (by decide)
      (by decide) (by decide)).2.2.1,
   (c6_endpoint_failover ["epA", "epB", "epC"] 3 wAliveC6 50 rfl (by decide)
      (by decide) (by decide)).2.2.2.2.2.1 0 (by decide),
   (c6_endpoint_failover ["epA", "epB", "epC"] 3 wAliveC6 50 rfl (by decide)
      (by decide) (by decide)).2.2.2.2.2.2.2.1 (fun _ => false) 200 (by decide)
      (by decide) 0 (by decide)⟩

end GoArbi
